import Mathlib

/-!
Verification of the Civ Recomp tools (sp00nznet/civ, `src/tools/recomp/`).

This file gives a shallow embedding, in Lean 4, of the parts of the
repository that the specification's claims are about:

* `decode16.py` - the 16-bit x86 instruction decoder (`Decoder.decode_one`,
  `Decoder.decode_range`, `Decoder._decode_modrm` and the EA tables);
* `analyze.py` - the function-boundary analyzer
  (`Analyzer._detect_functions_in_range`, `Analyzer.extract_strings`,
  `Analyzer.categorize_functions`);
* `lift.py` - the instruction lifter (`Lifter.lift_instruction` and the
  repeat-prefix handling of `Lifter.lift_function`);
* `resolve_stubs.py` - `compute_file_offset`.

Byte buffers are modelled as `List Nat` (each element a byte value).
Python `int` values that can be negative (displacements, sign-extended
reads, the overlay-number sentinel `-1`) are modelled as `Int`.
Python's `x & 0xFFFF` on a possibly negative `int` equals Euclidean
`x % 0x10000`, so it is modelled as `Int.emod _ 65536`.

The decoder mutates a cursor (`self.pos`) and raises `IndexError` on a
truncated read; this is modelled by the monad `DecM` below: a
computation takes the entry cursor `p` and either fails (`none`,
modelling the raised `IndexError`) or returns a value together with the
new cursor and a proof that the cursor did not move backwards.  That
carried proof is what makes the cursor-progress facts (claims about
termination and length accounting) provable without a case analysis of
the whole opcode ladder.
-/

set_option maxHeartbeats 1000000
set_option maxRecDepth 4000

namespace Civ

/-! ## decode16.py: operand and instruction records -/

/-- `OpType` enum of `decode16.py`. -/
inductive OpType where
  | NONE | REG8 | REG16 | SREG | MEM | IMM8 | IMM16 | REL8 | REL16 | FAR | MOFFS
deriving DecidableEq, Repr

def REG8_NAMES : List String := ["al", "cl", "dl", "bl", "ah", "ch", "dh", "bh"]

def REG16_NAMES : List String := ["ax", "cx", "dx", "bx", "sp", "bp", "si", "di"]

def SREG_NAMES : List String := ["es", "cs", "ss", "ds"]

/-- 16-bit ModR/M effective address components (`EA_BASES`). -/
def EA_BASES : List (String × Option String) :=
  [("bx", some "si"), ("bx", some "di"), ("bp", some "si"), ("bp", some "di"),
   ("si", none), ("di", none), ("bp", none), ("bx", none)]

/-- Default segment for each r/m value, mod /= 11 (`EA_DEFAULT_SEG`). -/
def EA_DEFAULT_SEG : List String := ["ds", "ds", "ss", "ss", "ds", "ds", "ss", "ds"]

/-- The `Operand` dataclass of `decode16.py`, with its field defaults. -/
structure Operand where
  type : OpType := .NONE
  reg : Nat := 0
  seg : String := ""
  base : String := ""
  index : String := ""
  disp : Int := 0
  size : Nat := 0
  far_seg : Nat := 0
deriving DecidableEq, Repr

/-- The `Instruction` dataclass of `decode16.py`.  The Python field
`prefix` (the REP/REPZ/REPNZ marker) is called `rep` here, and the
Python field `seg_override` is called `segOverride`. -/
structure Instruction where
  offset : Nat := 0
  address : Nat := 0
  length : Nat := 0
  raw : List Nat := []
  mnemonic : String := ""
  op1 : Option Operand := none
  op2 : Option Operand := none
  rep : String := ""
  segOverride : String := ""
  overlay_num : Int := -1
  overlay_off : Nat := 0
deriving DecidableEq, Repr

/-! ## The decoding monad -/

/-- Result of a decoder computation run from cursor `p`: the value, the
new cursor, and the fact that the cursor did not move backwards. -/
structure DRes (α : Type) (p : Nat) where
  val : α
  pos : Nat
  hle : p ≤ pos

/-- A decoder computation: from an entry cursor, either fail (this
models a raised `IndexError`) or produce a `DRes`. -/
def DecM (α : Type) : Type := (p : Nat) → Option (DRes α p)

instance : Monad DecM where
  pure a := fun p => some ⟨a, p, Nat.le_refl p⟩
  bind x f := fun p =>
    match x p with
    | none => none
    | some r =>
      match f r.val r.pos with
      | none => none
      | some s => some ⟨s.val, s.pos, Nat.le_trans r.hle s.hle⟩

/-- Apply a decoder computation and keep only the produced value
(dropping the cursor and the proof). -/
def dval {α : Type} {p : Nat} (x : Option (DRes α p)) : Option α := x.map (·.val)

/-- Apply a decoder computation and keep only the final cursor. -/
def dpos {α : Type} {p : Nat} (x : Option (DRes α p)) : Option Nat := x.map (·.pos)

/-- `Decoder._u8`: read one byte and advance the cursor. -/
def u8 (d : List Nat) : DecM Nat := fun p =>
  match d.get? p with
  | some b => some ⟨b, p + 1, Nat.le_succ p⟩
  | none => none

/-- Sign extension of a byte value, as computed by `Decoder._s8`. -/
def sx8 (b : Nat) : Int := if b < 128 then (b : Int) else (b : Int) - 256

/-- `Decoder._s8`: read one byte, sign extended. -/
def s8 (d : List Nat) : DecM Int := fun p =>
  match d.get? p with
  | some b => some ⟨sx8 b, p + 1, Nat.le_succ p⟩
  | none => none

/-- The 16-bit little-endian value assembled by `Decoder._u16`. -/
def le16 (lo hi : Nat) : Nat := lo ||| (hi <<< 8)

/-- `Decoder._u16`: read a 16-bit little-endian word. -/
def u16 (d : List Nat) : DecM Nat := fun p =>
  match d.get? p, d.get? (p + 1) with
  | some lo, some hi => some ⟨le16 lo hi, p + 2, Nat.le_add_right p 2⟩
  | _, _ => none

/-- Sign extension of a 16-bit value, as computed by `Decoder._s16`. -/
def sx16 (v : Nat) : Int := if v < 32768 then (v : Int) else (v : Int) - 65536

/-- `Decoder._s16`: read a 16-bit little-endian word, sign extended. -/
def s16 (d : List Nat) : DecM Int := fun p =>
  match d.get? p, d.get? (p + 1) with
  | some lo, some hi => some ⟨sx16 (le16 lo hi), p + 2, Nat.le_add_right p 2⟩
  | _, _ => none

/-- Observe the current cursor (`self.pos`) without moving it. -/
def curPos : DecM Nat := fun p => some ⟨p, p, Nat.le_refl p⟩

/-! ## ModR/M decoding (`Decoder._decode_modrm`) -/

/-- `Decoder._decode_modrm`.  Returns `(reg_operand, rm_operand, reg)`,
exactly as the Python method does. -/
def decodeModRM (d : List Nat) (wide : Bool) (segOverride : String) :
    DecM (Operand × Operand × Nat) := do
  let modrm ← u8 d
  let md := (modrm >>> 6) &&& 3
  let reg := (modrm >>> 3) &&& 7
  let rm := modrm &&& 7
  let reg_op : Operand :=
    if wide then { type := .REG16, reg := reg, size := 2 }
    else { type := .REG8, reg := reg, size := 1 }
  if md = 3 then
    -- Register direct
    let rm_op : Operand :=
      if wide then { type := .REG16, reg := rm, size := 2 }
      else { type := .REG8, reg := rm, size := 1 }
    pure (reg_op, rm_op, reg)
  else
    -- Memory
    let pair := EA_BASES.getD rm ("", none)
    if md = 0 ∧ rm = 6 then do
      -- Special: [disp16]
      let dv ← u16 d
      let seg := if segOverride = "" then "ds" else segOverride
      pure (reg_op,
            ({ type := .MEM, base := "", index := "", disp := (dv : Int),
               seg := seg, size := if wide then 2 else 1 } : Operand),
            reg)
    else do
      let disp ←
        if md = 1 then s8 d
        else if md = 2 then s16 d
        else pure 0
      let seg := if segOverride = "" then EA_DEFAULT_SEG.getD rm "" else segOverride
      pure (reg_op,
            ({ type := .MEM, base := pair.1, index := pair.2.getD "", disp := disp,
               seg := seg, size := if wide then 2 else 1 } : Operand),
            reg)

/-! ## The opcode ladder of `Decoder.decode_one` -/

def ALU_NAMES : List String := ["add", "or", "adc", "sbb", "and", "sub", "xor", "cmp"]

def CC_NAMES : List String :=
  ["jo", "jno", "jb", "jae", "je", "jne", "jbe", "ja",
   "js", "jns", "jp", "jnp", "jl", "jge", "jle", "jg"]

def SHIFT_NAMES : List String := ["rol", "ror", "rcl", "rcr", "shl", "shr", "sal", "sar"]

def GRP3_NAMES : List String := ["test", "test", "not", "neg", "mul", "imul", "div", "idiv"]

def GRP5_NAMES : List String := ["inc", "dec", "call", "call", "jmp", "jmp", "push", "?"]

/-- The body of `Decoder.decode_one` after the prefix loop: the main
opcode dispatch ladder, with the opcode byte already consumed.  Returns
the instruction record with `mnemonic`, `op1`, `op2` and the overlay
payload set; the caller fills in `offset`, `address`, `length`, `raw`
and the prefix fields.  The branches appear in the same order as the
Python `if`/`elif` ladder. -/
def decodeBody (d : List Nat) (opcode : Nat) (segOverride : String) : DecM Instruction :=
  -- ALU ops: ADD, OR, ADC, SBB, AND, SUB, XOR, CMP (0x00-0x3F, 6 encodings each)
  if opcode ≤ 0x3F ∧ opcode &&& 7 ≤ 5 ∧ opcode >>> 3 < 8 then do
    let mnem := ALU_NAMES.getD (opcode >>> 3) ""
    let sub := opcode &&& 7
    if sub = 0 then do      -- r/m8, reg8
      let (reg, rm, _) ← decodeModRM d false segOverride
      pure { mnemonic := mnem, op1 := some rm, op2 := some reg }
    else if sub = 1 then do -- r/m16, reg16
      let (reg, rm, _) ← decodeModRM d true segOverride
      pure { mnemonic := mnem, op1 := some rm, op2 := some reg }
    else if sub = 2 then do -- reg8, r/m8
      let (reg, rm, _) ← decodeModRM d false segOverride
      pure { mnemonic := mnem, op1 := some reg, op2 := some rm }
    else if sub = 3 then do -- reg16, r/m16
      let (reg, rm, _) ← decodeModRM d true segOverride
      pure { mnemonic := mnem, op1 := some reg, op2 := some rm }
    else if sub = 4 then do -- AL, imm8
      let v ← u8 d
      pure { mnemonic := mnem, op1 := some { type := .REG8, reg := 0, size := 1 },
             op2 := some { type := .IMM8, disp := (v : Int), size := 1 } }
    else do                 -- AX, imm16
      let v ← u16 d
      pure { mnemonic := mnem, op1 := some { type := .REG16, reg := 0, size := 2 },
             op2 := some { type := .IMM16, disp := (v : Int), size := 2 } }
  -- PUSH/POP segment registers
  else if opcode = 0x06 ∨ opcode = 0x0E ∨ opcode = 0x16 ∨ opcode = 0x1E then
    pure { mnemonic := "push",
           op1 := some { type := .SREG, reg := (opcode >>> 3) &&& 3, size := 2 } }
  else if opcode = 0x07 ∨ opcode = 0x17 ∨ opcode = 0x1F then
    pure { mnemonic := "pop",
           op1 := some { type := .SREG, reg := (opcode >>> 3) &&& 3, size := 2 } }
  -- DAA, DAS, AAA, AAS
  else if opcode = 0x27 then pure { mnemonic := "daa" }
  else if opcode = 0x2F then pure { mnemonic := "das" }
  else if opcode = 0x37 then pure { mnemonic := "aaa" }
  else if opcode = 0x3F then pure { mnemonic := "aas" }
  -- INC reg16 (0x40-0x47)
  else if 0x40 ≤ opcode ∧ opcode ≤ 0x47 then
    pure { mnemonic := "inc",
           op1 := some { type := .REG16, reg := opcode - 0x40, size := 2 } }
  -- DEC reg16 (0x48-0x4F)
  else if 0x48 ≤ opcode ∧ opcode ≤ 0x4F then
    pure { mnemonic := "dec",
           op1 := some { type := .REG16, reg := opcode - 0x48, size := 2 } }
  -- PUSH reg16 (0x50-0x57)
  else if 0x50 ≤ opcode ∧ opcode ≤ 0x57 then
    pure { mnemonic := "push",
           op1 := some { type := .REG16, reg := opcode - 0x50, size := 2 } }
  -- POP reg16 (0x58-0x5F)
  else if 0x58 ≤ opcode ∧ opcode ≤ 0x5F then
    pure { mnemonic := "pop",
           op1 := some { type := .REG16, reg := opcode - 0x58, size := 2 } }
  -- PUSHA/POPA (80186+)
  else if opcode = 0x60 then pure { mnemonic := "pusha" }
  else if opcode = 0x61 then pure { mnemonic := "popa" }
  -- PUSH imm16 (80186+)
  else if opcode = 0x68 then do
    let v ← u16 d
    pure { mnemonic := "push", op1 := some { type := .IMM16, disp := (v : Int), size := 2 } }
  -- IMUL r16, r/m16, imm16 (80186+)
  else if opcode = 0x69 then do
    let (reg, _, _) ← decodeModRM d true segOverride
    let v ← u16 d
    pure { mnemonic := "imul", op1 := some reg,
           op2 := some { type := .IMM16, disp := (v : Int), size := 2 } }
  -- PUSH imm8 (sign-extended to 16) (80186+)
  else if opcode = 0x6A then do
    let v ← s8 d
    pure { mnemonic := "push",
           op1 := some { type := .IMM8, disp := v.emod 65536, size := 2 } }
  -- IMUL r16, r/m16, imm8 (80186+)
  else if opcode = 0x6B then do
    let (reg, _, _) ← decodeModRM d true segOverride
    let v ← s8 d
    pure { mnemonic := "imul", op1 := some reg,
           op2 := some { type := .IMM8, disp := v.emod 65536, size := 2 } }
  -- Jcc short (0x70-0x7F)
  else if 0x70 ≤ opcode ∧ opcode ≤ 0x7F then do
    let rel ← s8 d
    let p ← curPos
    pure { mnemonic := CC_NAMES.getD (opcode - 0x70) "",
           op1 := some { type := .REL8, disp := ((p : Int) + rel).emod 65536, size := 2 } }
  -- Group 1: ALU r/m, imm
  else if opcode = 0x80 ∨ opcode = 0x81 ∨ opcode = 0x82 ∨ opcode = 0x83 then do
    let wide := opcode = 0x81 ∨ opcode = 0x83
    let sign_ext := opcode = 0x82 ∨ opcode = 0x83
    let (_, rm, alu_op) ← decodeModRM d (decide wide) segOverride
    let op2 ←
      if sign_ext ∧ wide then do
        let v ← s8 d
        pure ({ type := .IMM8, disp := v.emod 65536, size := 2 } : Operand)
      else if wide then do
        let v ← u16 d
        pure ({ type := .IMM16, disp := (v : Int), size := 2 } : Operand)
      else do
        let v ← u8 d
        pure ({ type := .IMM8, disp := (v : Int), size := 1 } : Operand)
    pure { mnemonic := ALU_NAMES.getD alu_op "", op1 := some rm, op2 := some op2 }
  -- TEST r/m, reg
  else if opcode = 0x84 then do
    let (reg, rm, _) ← decodeModRM d false segOverride
    pure { mnemonic := "test", op1 := some rm, op2 := some reg }
  else if opcode = 0x85 then do
    let (reg, rm, _) ← decodeModRM d true segOverride
    pure { mnemonic := "test", op1 := some rm, op2 := some reg }
  -- XCHG r/m, reg
  else if opcode = 0x86 then do
    let (reg, rm, _) ← decodeModRM d false segOverride
    pure { mnemonic := "xchg", op1 := some rm, op2 := some reg }
  else if opcode = 0x87 then do
    let (reg, rm, _) ← decodeModRM d true segOverride
    pure { mnemonic := "xchg", op1 := some rm, op2 := some reg }
  -- MOV r/m, reg and MOV reg, r/m
  else if opcode = 0x88 then do
    let (reg, rm, _) ← decodeModRM d false segOverride
    pure { mnemonic := "mov", op1 := some rm, op2 := some reg }
  else if opcode = 0x89 then do
    let (reg, rm, _) ← decodeModRM d true segOverride
    pure { mnemonic := "mov", op1 := some rm, op2 := some reg }
  else if opcode = 0x8A then do
    let (reg, rm, _) ← decodeModRM d false segOverride
    pure { mnemonic := "mov", op1 := some reg, op2 := some rm }
  else if opcode = 0x8B then do
    let (reg, rm, _) ← decodeModRM d true segOverride
    pure { mnemonic := "mov", op1 := some reg, op2 := some rm }
  -- MOV r/m16, sreg
  else if opcode = 0x8C then do
    let (_, rm, rn) ← decodeModRM d true segOverride
    pure { mnemonic := "mov", op1 := some rm,
           op2 := some { type := .SREG, reg := rn &&& 3, size := 2 } }
  -- LEA reg16, m
  else if opcode = 0x8D then do
    let (reg, rm, _) ← decodeModRM d true segOverride
    pure { mnemonic := "lea", op1 := some reg, op2 := some rm }
  -- MOV sreg, r/m16
  else if opcode = 0x8E then do
    let (_, rm, rn) ← decodeModRM d true segOverride
    pure { mnemonic := "mov",
           op1 := some { type := .SREG, reg := rn &&& 3, size := 2 }, op2 := some rm }
  -- POP r/m16
  else if opcode = 0x8F then do
    let (_, rm, _) ← decodeModRM d true segOverride
    pure { mnemonic := "pop", op1 := some rm }
  -- NOP (XCHG AX, AX)
  else if opcode = 0x90 then pure { mnemonic := "nop" }
  -- XCHG AX, reg16
  else if 0x91 ≤ opcode ∧ opcode ≤ 0x97 then
    pure { mnemonic := "xchg",
           op1 := some { type := .REG16, reg := 0, size := 2 },
           op2 := some { type := .REG16, reg := opcode - 0x90, size := 2 } }
  -- CBW, CWD
  else if opcode = 0x98 then pure { mnemonic := "cbw" }
  else if opcode = 0x99 then pure { mnemonic := "cwd" }
  -- CALL far ptr
  else if opcode = 0x9A then do
    let off ← u16 d
    let seg ← u16 d
    pure { mnemonic := "call",
           op1 := some { type := .FAR, disp := (off : Int), far_seg := seg, size := 4 } }
  -- PUSHF, POPF
  else if opcode = 0x9C then pure { mnemonic := "pushf" }
  else if opcode = 0x9D then pure { mnemonic := "popf" }
  -- SAHF, LAHF
  else if opcode = 0x9E then pure { mnemonic := "sahf" }
  else if opcode = 0x9F then pure { mnemonic := "lahf" }
  -- MOV AL/AX, moffs
  else if opcode = 0xA0 then do
    let a ← u16 d
    pure { mnemonic := "mov", op1 := some { type := .REG8, reg := 0, size := 1 },
           op2 := some { type := .MOFFS, disp := (a : Int),
                         seg := if segOverride = "" then "ds" else segOverride, size := 1 } }
  else if opcode = 0xA1 then do
    let a ← u16 d
    pure { mnemonic := "mov", op1 := some { type := .REG16, reg := 0, size := 2 },
           op2 := some { type := .MOFFS, disp := (a : Int),
                         seg := if segOverride = "" then "ds" else segOverride, size := 2 } }
  -- MOV moffs, AL/AX
  else if opcode = 0xA2 then do
    let a ← u16 d
    pure { mnemonic := "mov",
           op1 := some { type := .MOFFS, disp := (a : Int),
                         seg := if segOverride = "" then "ds" else segOverride, size := 1 },
           op2 := some { type := .REG8, reg := 0, size := 1 } }
  else if opcode = 0xA3 then do
    let a ← u16 d
    pure { mnemonic := "mov",
           op1 := some { type := .MOFFS, disp := (a : Int),
                         seg := if segOverride = "" then "ds" else segOverride, size := 2 },
           op2 := some { type := .REG16, reg := 0, size := 2 } }
  -- String ops
  else if opcode = 0xA4 then pure { mnemonic := "movsb" }
  else if opcode = 0xA5 then pure { mnemonic := "movsw" }
  else if opcode = 0xA6 then pure { mnemonic := "cmpsb" }
  else if opcode = 0xA7 then pure { mnemonic := "cmpsw" }
  -- TEST AL/AX, imm
  else if opcode = 0xA8 then do
    let v ← u8 d
    pure { mnemonic := "test", op1 := some { type := .REG8, reg := 0, size := 1 },
           op2 := some { type := .IMM8, disp := (v : Int), size := 1 } }
  else if opcode = 0xA9 then do
    let v ← u16 d
    pure { mnemonic := "test", op1 := some { type := .REG16, reg := 0, size := 2 },
           op2 := some { type := .IMM16, disp := (v : Int), size := 2 } }
  -- STOSB, STOSW, LODSB, LODSW, SCASB, SCASW
  else if opcode = 0xAA then pure { mnemonic := "stosb" }
  else if opcode = 0xAB then pure { mnemonic := "stosw" }
  else if opcode = 0xAC then pure { mnemonic := "lodsb" }
  else if opcode = 0xAD then pure { mnemonic := "lodsw" }
  else if opcode = 0xAE then pure { mnemonic := "scasb" }
  else if opcode = 0xAF then pure { mnemonic := "scasw" }
  -- MOV reg8, imm8 (0xB0-0xB7)
  else if 0xB0 ≤ opcode ∧ opcode ≤ 0xB7 then do
    let v ← u8 d
    pure { mnemonic := "mov",
           op1 := some { type := .REG8, reg := opcode - 0xB0, size := 1 },
           op2 := some { type := .IMM8, disp := (v : Int), size := 1 } }
  -- MOV reg16, imm16 (0xB8-0xBF)
  else if 0xB8 ≤ opcode ∧ opcode ≤ 0xBF then do
    let v ← u16 d
    pure { mnemonic := "mov",
           op1 := some { type := .REG16, reg := opcode - 0xB8, size := 2 },
           op2 := some { type := .IMM16, disp := (v : Int), size := 2 } }
  -- Shift group (0xC0/0xC1 = shift r/m, imm8) (80186+)
  else if opcode = 0xC0 ∨ opcode = 0xC1 then do
    let (_, rm, shift_op) ← decodeModRM d (decide (opcode = 0xC1)) segOverride
    let v ← u8 d
    pure { mnemonic := SHIFT_NAMES.getD shift_op "", op1 := some rm,
           op2 := some { type := .IMM8, disp := (v : Int), size := 1 } }
  -- RET near imm16
  else if opcode = 0xC2 then do
    let v ← u16 d
    pure { mnemonic := "ret", op1 := some { type := .IMM16, disp := (v : Int), size := 2 } }
  -- RET near
  else if opcode = 0xC3 then pure { mnemonic := "ret" }
  -- LES reg16, m
  else if opcode = 0xC4 then do
    let (reg, rm, _) ← decodeModRM d true segOverride
    pure { mnemonic := "les", op1 := some reg, op2 := some rm }
  -- LDS reg16, m
  else if opcode = 0xC5 then do
    let (reg, rm, _) ← decodeModRM d true segOverride
    pure { mnemonic := "lds", op1 := some reg, op2 := some rm }
  -- MOV r/m8, imm8
  else if opcode = 0xC6 then do
    let (_, rm, _) ← decodeModRM d false segOverride
    let v ← u8 d
    pure { mnemonic := "mov", op1 := some rm,
           op2 := some { type := .IMM8, disp := (v : Int), size := 1 } }
  -- MOV r/m16, imm16
  else if opcode = 0xC7 then do
    let (_, rm, _) ← decodeModRM d true segOverride
    let v ← u16 d
    pure { mnemonic := "mov", op1 := some rm,
           op2 := some { type := .IMM16, disp := (v : Int), size := 2 } }
  -- ENTER (80186+)
  else if opcode = 0xC8 then do
    let size ← u16 d
    let level ← u8 d
    pure { mnemonic := "enter",
           op1 := some { type := .IMM16, disp := (size : Int), size := 2 },
           op2 := some { type := .IMM8, disp := (level : Int), size := 1 } }
  -- LEAVE (80186+)
  else if opcode = 0xC9 then pure { mnemonic := "leave" }
  -- RETF imm16
  else if opcode = 0xCA then do
    let v ← u16 d
    pure { mnemonic := "retf", op1 := some { type := .IMM16, disp := (v : Int), size := 2 } }
  -- RETF
  else if opcode = 0xCB then pure { mnemonic := "retf" }
  -- INT 3
  else if opcode = 0xCC then
    pure { mnemonic := "int", op1 := some { type := .IMM8, disp := 3, size := 1 } }
  -- INT imm8; special MSC overlay call (INT 3Fh)
  else if opcode = 0xCD then do
    let int_num ← u8 d
    let p ← curPos
    if int_num = 0x3F ∧ p + 2 < d.length then do
      let onum ← u8 d
      let ooff ← u16 d
      pure { mnemonic := "int", op1 := some { type := .IMM8, disp := (int_num : Int), size := 1 },
             overlay_num := (onum : Int), overlay_off := ooff }
    else
      pure { mnemonic := "int", op1 := some { type := .IMM8, disp := (int_num : Int), size := 1 } }
  -- INTO, IRET
  else if opcode = 0xCE then pure { mnemonic := "into" }
  else if opcode = 0xCF then pure { mnemonic := "iret" }
  -- Shift group (0xD0-0xD3)
  else if opcode = 0xD0 ∨ opcode = 0xD1 ∨ opcode = 0xD2 ∨ opcode = 0xD3 then do
    let wide := opcode = 0xD1 ∨ opcode = 0xD3
    let by_cl := opcode = 0xD2 ∨ opcode = 0xD3
    let (_, rm, shift_op) ← decodeModRM d (decide wide) segOverride
    let op2 : Operand :=
      if by_cl then { type := .REG8, reg := 1, size := 1 }  -- CL
      else { type := .IMM8, disp := 1, size := 1 }
    pure { mnemonic := SHIFT_NAMES.getD shift_op "", op1 := some rm, op2 := some op2 }
  -- AAM, AAD (consume the base byte)
  else if opcode = 0xD4 then do
    let _ ← u8 d
    pure { mnemonic := "aam" }
  else if opcode = 0xD5 then do
    let _ ← u8 d
    pure { mnemonic := "aad" }
  -- XLAT
  else if opcode = 0xD7 then pure { mnemonic := "xlat" }
  -- ESC (FPU) - 0xD8-0xDF - read ModR/M and skip
  else if 0xD8 ≤ opcode ∧ opcode ≤ 0xDF then do
    let _ ← decodeModRM d false segOverride
    pure { mnemonic := "esc_" ++ toString (opcode - 0xD8) }
  -- LOOPNZ, LOOPZ, LOOP, JCXZ
  else if opcode = 0xE0 then do
    let rel ← s8 d
    let p ← curPos
    pure { mnemonic := "loopnz",
           op1 := some { type := .REL8, disp := ((p : Int) + rel).emod 65536, size := 2 } }
  else if opcode = 0xE1 then do
    let rel ← s8 d
    let p ← curPos
    pure { mnemonic := "loopz",
           op1 := some { type := .REL8, disp := ((p : Int) + rel).emod 65536, size := 2 } }
  else if opcode = 0xE2 then do
    let rel ← s8 d
    let p ← curPos
    pure { mnemonic := "loop",
           op1 := some { type := .REL8, disp := ((p : Int) + rel).emod 65536, size := 2 } }
  else if opcode = 0xE3 then do
    let rel ← s8 d
    let p ← curPos
    pure { mnemonic := "jcxz",
           op1 := some { type := .REL8, disp := ((p : Int) + rel).emod 65536, size := 2 } }
  -- IN AL/AX, imm8
  else if opcode = 0xE4 then do
    let v ← u8 d
    pure { mnemonic := "in", op1 := some { type := .REG8, reg := 0, size := 1 },
           op2 := some { type := .IMM8, disp := (v : Int), size := 1 } }
  else if opcode = 0xE5 then do
    let v ← u8 d
    pure { mnemonic := "in", op1 := some { type := .REG16, reg := 0, size := 2 },
           op2 := some { type := .IMM8, disp := (v : Int), size := 1 } }
  -- OUT imm8, AL/AX
  else if opcode = 0xE6 then do
    let v ← u8 d
    pure { mnemonic := "out", op1 := some { type := .IMM8, disp := (v : Int), size := 1 },
           op2 := some { type := .REG8, reg := 0, size := 1 } }
  else if opcode = 0xE7 then do
    let v ← u8 d
    pure { mnemonic := "out", op1 := some { type := .IMM8, disp := (v : Int), size := 1 },
           op2 := some { type := .REG16, reg := 0, size := 2 } }
  -- CALL rel16
  else if opcode = 0xE8 then do
    let rel ← s16 d
    let p ← curPos
    pure { mnemonic := "call",
           op1 := some { type := .REL16, disp := ((p : Int) + rel).emod 65536, size := 2 } }
  -- JMP rel16
  else if opcode = 0xE9 then do
    let rel ← s16 d
    let p ← curPos
    pure { mnemonic := "jmp",
           op1 := some { type := .REL16, disp := ((p : Int) + rel).emod 65536, size := 2 } }
  -- JMP far
  else if opcode = 0xEA then do
    let off ← u16 d
    let seg ← u16 d
    pure { mnemonic := "jmp",
           op1 := some { type := .FAR, disp := (off : Int), far_seg := seg, size := 4 } }
  -- JMP rel8
  else if opcode = 0xEB then do
    let rel ← s8 d
    let p ← curPos
    pure { mnemonic := "jmp",
           op1 := some { type := .REL8, disp := ((p : Int) + rel).emod 65536, size := 2 } }
  -- IN AL/AX, DX
  else if opcode = 0xEC then
    pure { mnemonic := "in", op1 := some { type := .REG8, reg := 0, size := 1 },
           op2 := some { type := .REG16, reg := 2, size := 2 } }
  else if opcode = 0xED then
    pure { mnemonic := "in", op1 := some { type := .REG16, reg := 0, size := 2 },
           op2 := some { type := .REG16, reg := 2, size := 2 } }
  -- OUT DX, AL/AX
  else if opcode = 0xEE then
    pure { mnemonic := "out", op1 := some { type := .REG16, reg := 2, size := 2 },
           op2 := some { type := .REG8, reg := 0, size := 1 } }
  else if opcode = 0xEF then
    pure { mnemonic := "out", op1 := some { type := .REG16, reg := 2, size := 2 },
           op2 := some { type := .REG16, reg := 0, size := 2 } }
  -- HLT, CMC
  else if opcode = 0xF4 then pure { mnemonic := "hlt" }
  else if opcode = 0xF5 then pure { mnemonic := "cmc" }
  -- Group 3: TEST/NOT/NEG/MUL/IMUL/DIV/IDIV
  else if opcode = 0xF6 ∨ opcode = 0xF7 then do
    let wide := opcode = 0xF7
    let (_, rm, grp_op) ← decodeModRM d (decide wide) segOverride
    if grp_op ≤ 1 then do  -- TEST r/m, imm
      let op2 : Operand ←
        if wide then do
          let v ← u16 d
          pure { type := .IMM16, disp := (v : Int), size := 2 }
        else do
          let v ← u8 d
          pure { type := .IMM8, disp := (v : Int), size := 1 }
      pure { mnemonic := GRP3_NAMES.getD grp_op "", op1 := some rm, op2 := some op2 }
    else
      pure { mnemonic := GRP3_NAMES.getD grp_op "", op1 := some rm }
  -- CLC, STC, CLI, STI, CLD, STD
  else if opcode = 0xF8 then pure { mnemonic := "clc" }
  else if opcode = 0xF9 then pure { mnemonic := "stc" }
  else if opcode = 0xFA then pure { mnemonic := "cli" }
  else if opcode = 0xFB then pure { mnemonic := "sti" }
  else if opcode = 0xFC then pure { mnemonic := "cld" }
  else if opcode = 0xFD then pure { mnemonic := "std" }
  -- Group 4/5: INC/DEC/CALL/JMP/PUSH
  else if opcode = 0xFE ∨ opcode = 0xFF then do
    let wide := opcode = 0xFF
    let (_, rm, grp_op) ← decodeModRM d (decide wide) segOverride
    if opcode = 0xFE then
      let mnem :=
        if grp_op = 0 then "inc"
        else if grp_op = 1 then "dec"
        else "grp4_" ++ toString grp_op
      pure { mnemonic := mnem, op1 := some rm }
    else
      let mnem := GRP5_NAMES.getD grp_op ""
      let mnem := if grp_op = 3 ∨ grp_op = 5 then mnem ++ " far" else mnem
      pure { mnemonic := mnem, op1 := some rm }
  -- WAIT
  else if opcode = 0x9B then pure { mnemonic := "wait" }
  -- Unknown opcode: raw data byte
  else
    pure { mnemonic := "db", op1 := some { type := .IMM8, disp := (opcode : Int), size := 1 } }

/-! ## Prefix loop, `decode_one` wrapper, and `decode_range` -/

/-- The prefix-consuming loop at the top of `Decoder.decode_one`:
while bytes remain, consume segment-override (0x26/0x2E/0x36/0x3E),
repeat (0xF2/0xF3) and LOCK (0xF0) prefixes, accumulating the override
name and the repeat marker.  `fuel` is a structural bound on the number
of iterations; it is always called with `fuel = d.length - p`, which
suffices because each iteration advances the cursor by one (when the
fuel runs out the cursor is at or past the end of the data, where the
loop would stop anyway, so the fuel-exhausted fallback agrees with the
loop's exit). -/
def scanPre (d : List Nat) (seg rep : String) : (fuel p : Nat) → DRes (String × String) p
  | 0, p => ⟨(seg, rep), p, Nat.le_refl p⟩
  | fuel + 1, p =>
    match d.get? p with
    | none => ⟨(seg, rep), p, Nat.le_refl p⟩
    | some b =>
      if b = 0x26 then
        let r := scanPre d "es" rep fuel (p + 1)
        ⟨r.val, r.pos, Nat.le_trans (Nat.le_succ p) r.hle⟩
      else if b = 0x2E then
        let r := scanPre d "cs" rep fuel (p + 1)
        ⟨r.val, r.pos, Nat.le_trans (Nat.le_succ p) r.hle⟩
      else if b = 0x36 then
        let r := scanPre d "ss" rep fuel (p + 1)
        ⟨r.val, r.pos, Nat.le_trans (Nat.le_succ p) r.hle⟩
      else if b = 0x3E then
        let r := scanPre d "ds" rep fuel (p + 1)
        ⟨r.val, r.pos, Nat.le_trans (Nat.le_succ p) r.hle⟩
      else if b = 0xF2 then
        let r := scanPre d seg "repnz" fuel (p + 1)
        ⟨r.val, r.pos, Nat.le_trans (Nat.le_succ p) r.hle⟩
      else if b = 0xF3 then
        let r := scanPre d seg "rep" fuel (p + 1)
        ⟨r.val, r.pos, Nat.le_trans (Nat.le_succ p) r.hle⟩
      else if b = 0xF0 then  -- LOCK prefix (ignore)
        let r := scanPre d seg rep fuel (p + 1)
        ⟨r.val, r.pos, Nat.le_trans (Nat.le_succ p) r.hle⟩
      else ⟨(seg, rep), p, Nat.le_refl p⟩

/-- The `Decoder` object: the byte buffer and the base offset. -/
structure Decoder where
  data : List Nat
  base : Nat := 0

/-- `Decoder.decode_one`: decode a single instruction at cursor `p`.
The outer `Option` models a raised `IndexError` (a truncated read);
the inner `Option Instruction` models the Python `return None`
end-of-stream result.  The `getD _ 0` read of the opcode byte is only
reached when the cursor is strictly below the buffer length, where it
equals the Python `data[pos]`. -/
def decodeOne (D : Decoder) : DecM (Option Instruction) := fun p =>
  if p ≥ D.data.length then some ⟨none, p, Nat.le_refl p⟩
  else
    match scanPre D.data "" "" (D.data.length - p) p with
    | ⟨(segOv, rep), pp, hle⟩ =>
      if pp ≥ D.data.length then some ⟨none, pp, hle⟩
      else
        match decodeBody D.data (D.data.getD pp 0) segOv (pp + 1) with
        | none => none
        | some r =>
          some ⟨some { r.val with
                        offset := D.base + p,
                        address := p,
                        length := r.pos - p,
                        raw := (D.data.drop p).take (r.pos - p),
                        segOverride := segOv,
                        rep := rep },
                r.pos,
                Nat.le_trans hle (Nat.le_trans (Nat.le_succ pp) r.hle)⟩

/-- The fallback instruction built by the `except` handler of
`Decoder.decode_range`: a one-byte `db` pseudo-instruction at the saved
cursor. -/
def dbInst (D : Decoder) (p : Nat) : Instruction :=
  { offset := D.base + p, address := p, mnemonic := "db",
    op1 := some { type := .IMM8, disp := ((D.data.getD p 0 : Nat) : Int), size := 1 },
    raw := (D.data.drop p).take 1, length := 1 }

/-- The loop of `Decoder.decode_range`, with an explicit iteration
bound.  Returns `none` when the bound is exhausted; otherwise returns
the decoded instructions together with the cursor value reached by the
last completed step and a flag recording whether the loop exited early
through the `inst is None` break (in that case the reported cursor is
the entry cursor of the breaking iteration).  `decode_range_terminates`
below shows the bound `e - p` always suffices, so `decodeRange` never
actually hits the `none` case. -/
def sweepAux (D : Decoder) (e : Nat) : (fuel p : Nat) → Option (List Instruction × Nat × Bool)
  | 0, p => if p < e then none else some ([], p, false)
  | fuel + 1, p =>
    if p < e then
      match decodeOne D p with
      | none =>
        -- Decoding failed (truncated instruction, etc.): emit a raw byte
        match sweepAux D e fuel (p + 1) with
        | none => none
        | some (l, fin, st) => some (dbInst D p :: l, fin, st)
      | some r =>
        match r.val with
        | none => some ([], p, true)
        | some inst =>
          match sweepAux D e fuel r.pos with
          | none => none
          | some (l, fin, st) => some (inst :: l, fin, st)
    else some ([], p, false)

/-- `Decoder.decode_range`: decode all instructions in `[s, e)`. -/
def decodeRange (D : Decoder) (s e : Nat) : List Instruction :=
  match sweepAux D e (e - s) s with
  | some (l, _, _) => l
  | none => []

/-- `Decoder.decode_all`: decode the entire data buffer. -/
def decodeAll (D : Decoder) : List Instruction := decodeRange D 0 D.data.length

/-- Sum of the recorded lengths of a list of instructions. -/
def sumLengths (l : List Instruction) : Nat := (l.map Instruction.length).sum

/-! ## analyze.py: function boundary detection -/

/-- An outgoing call recorded on a function: `Function.calls` holds
plain integers for near calls and `(segment, offset)` pairs for far
calls. -/
inductive CallTarget where
  | near (t : Int)
  | far (seg : Nat) (off : Int)
deriving DecidableEq, Repr

/-- The `Function` dataclass of `analyze.py`, with its field defaults.
The Python field `end` is called `stop` here (`end` is a Lean keyword). -/
structure AFunction where
  name : String := ""
  start : Nat := 0
  stop : Nat := 0
  size : Nat := 0
  local_size : Int := 0
  is_far : Bool := false
  is_overlay : Bool := false
  overlay_num : Nat := 0
  calls : List CallTarget := []
  called_by : List String := []
  ovl_calls : List (Int × Nat) := []
  inst_count : Nat := 0
  category : String := ""
deriving DecidableEq, Repr

/-- Does an (optional) operand denote the 16-bit register with index `r`? -/
def opIsReg16 (o : Option Operand) (r : Nat) : Bool :=
  match o with
  | some o => o.type == .REG16 && o.reg == r
  | none => false

/-- Test for an MSC 5.x prologue at an instruction: `PUSH BP` followed
immediately by `MOV BP, SP` (register indices 5 and 4). -/
def isProloguePair (inst : Instruction) (nxt : Option Instruction) : Bool :=
  inst.mnemonic == "push" && opIsReg16 inst.op1 5 &&
  (match nxt with
   | some n => n.mnemonic == "mov" && opIsReg16 n.op1 5 && opIsReg16 n.op2 4
   | none => false)

/-- The per-instruction bookkeeping applied to the current function
during the sweep of `Analyzer._detect_functions_in_range`: instruction
count, near/far call targets, overlay calls, and the far-return flag.
`rs` is the `start` parameter of the Python method (near-call targets
are recorded as `start + disp`). -/
def trackInst (rs : Nat) (inst : Instruction) (f : AFunction) : AFunction :=
  let f := { f with inst_count := f.inst_count + 1 }
  let f :=
    if inst.mnemonic = "call" then
      match inst.op1 with
      | some o =>
        if o.type = .REL16 then { f with calls := f.calls ++ [.near ((rs : Int) + o.disp)] }
        else if o.type = .FAR then { f with calls := f.calls ++ [.far o.far_seg o.disp] }
        else f
      | none => f
    else f
  let f :=
    if inst.mnemonic = "int" ∧ 0 ≤ inst.overlay_num then
      { f with ovl_calls := f.ovl_calls ++ [(inst.overlay_num, inst.overlay_off)] }
    else f
  if inst.mnemonic = "retf" then { f with is_far := true } else f

/-- Extract the `SUB SP, N` local-frame size from the instruction two
past the prologue, when present. -/
def localSizeFrom (third : Option Instruction) (f : AFunction) : AFunction :=
  match third with
  | some sub =>
    if sub.mnemonic == "sub" && opIsReg16 sub.op1 4 &&
       (match sub.op2 with
        | some o => o.type == .IMM8 || o.type == .IMM16
        | none => false) then
      { f with local_size := (sub.op2.getD {}).disp }
    else f
  | none => f

/-- The instruction sweep of `Analyzer._detect_functions_in_range`:
walk the decoded instructions, open a new function at each prologue
(closing the previous one at the prologue's offset), track calls into
the current function, and close the last function at the region end
`re`. -/
def detectAux (rs re : Nat) (ovlNum : Nat) :
    List Instruction → Option AFunction → List AFunction
  | [], cur =>
    match cur with
    | none => []
    | some f => [{ f with stop := re, size := re - f.start }]
  | inst :: rest, cur =>
    if isProloguePair inst rest.head? then
      let closed : List AFunction :=
        match cur with
        | some f => [{ f with stop := inst.offset, size := inst.offset - f.start }]
        | none => []
      let nf : AFunction :=
        { start := inst.offset, overlay_num := ovlNum, is_overlay := decide (ovlNum > 0) }
      let nf := localSizeFrom rest.tail.head? nf
      let nf := trackInst rs inst nf
      closed ++ detectAux rs re ovlNum rest (some nf)
    else
      detectAux rs re ovlNum rest (cur.map (trackInst rs inst))

/-- `Analyzer._detect_functions_in_range`: decode `data[start:end]`
with base offset `start` and sweep the instruction list for prologue
patterns. -/
def detectFunctionsInRange (d : List Nat) (rs re : Nat) (ovlNum : Nat := 0) :
    List AFunction :=
  let code := (d.drop rs).take (re - rs)
  let insts := decodeAll { data := code, base := rs }
  detectAux rs re ovlNum insts none

/-! ## analyze.py: string extraction and categorization -/

/-- The loop body of `Analyzer.extract_strings`: `i` is the current
file offset, `cur` the printable run collected so far (in order),
`curStart` its starting offset, and `acc` the recorded runs in reverse
order.  A run is recorded when it is terminated by a non-printable
byte and has length at least 4; a run still open at the end of the
window is not recorded (faithful to the source, whose loop ends
without flushing). -/
def extractAux : List Nat → Nat → List Char → Nat → List (Nat × String) → List (Nat × String)
  | [], _, _, _, acc => acc.reverse
  | b :: rest, i, cur, curStart, acc =>
    if 32 ≤ b ∧ b < 127 then
      let curStart := if cur.isEmpty then i else curStart
      extractAux rest (i + 1) (cur ++ [Char.ofNat b]) curStart acc
    else
      if cur.length ≥ 4 then
        extractAux rest (i + 1) [] curStart ((curStart, String.mk cur) :: acc)
      else
        extractAux rest (i + 1) [] curStart acc

/-- `Analyzer.extract_strings` over the window `[lo, hi)` of the data
(the source scans `range(self.hdr_size, self.img_size)`; both bounds
lie inside the file for the binaries the tool reads, so the window is
the corresponding slice).  Runs are keyed by starting offset, in
ascending (insertion) order. -/
def extractStrings (d : List Nat) (lo hi : Nat) : List (Nat × String) :=
  extractAux ((d.drop lo).take (hi - lo)) lo [] 0 []

/-- Substring test on character lists, modelling Python `needle in hay`. -/
def subAux (needle : List Char) : List Char → Bool
  | [] => needle.isEmpty
  | c :: t => needle.isPrefixOf (c :: t) || subAux needle t

/-- Python `needle in hay` on strings. -/
def strContains (hay needle : String) : Bool := subAux needle.data hay.data

/-- The fixed keyword-to-category table of
`Analyzer.categorize_functions`, in source (dict-insertion) order. -/
def categories : List (String × List String) :=
  [("gfx", [".pic", ".pal", "graphic", "sprite", "icon", "VGA", "EGA"]),
   ("sound", [".cvl", "sound", "AdLib", "Blaster", "Tandy"]),
   ("input", ["Mouse", "Keyboard", "mouse", "keyboard"]),
   ("game", ["city", "unit", "build", "combat", "wonder", "advance",
             "Civilization", "civilization", "GAME OVER"]),
   ("map", ["Map", "map", "terrain", "continent", "ocean"]),
   ("diplo", ["king", "President", "Warlord", "Emperor", "treaty",
              "peace", "war"]),
   ("save", ["Save", "Load", "CIVIL0", "civil0", "fame"]),
   ("ui", ["menu", "Menu", "Status", "screen", "display"]),
   ("init", ["Start", "New Game", "logo", "credits", "intro"])]

/-- The category assigned to one string by the inner loop of
`Analyzer.categorize_functions`: the first table entry one of whose
keywords occurs in the string (the inner `break` commits to it). -/
def firstCat (s : String) : Option String :=
  (categories.find? (fun ck => ck.2.any (fun kw => strContains s kw))).map (·.1)

/-- `Analyzer.categorize_functions`: for each function, walk the
extracted runs in order; every run whose start offset falls in the
function's half-open range and which matches the table overwrites the
function's category (the `break` in the source only leaves the inner
category loop, so later matching runs overwrite earlier ones). -/
def categorizeFunctions (runs : List (Nat × String)) (funcs : List AFunction) :
    List AFunction :=
  funcs.map (fun f =>
    runs.foldl (fun g r =>
      if g.start ≤ r.1 ∧ r.1 < g.stop then
        match firstCat r.2 with
        | some c => { g with category := c }
        | none => g
      else g) f)

/-- Specification-side helper (used to state claim C8 and its
correction): the category of the *last* matching run for `f`, if any. -/
def lastMatchCat (runs : List (Nat × String)) (f : AFunction) : Option String :=
  (runs.filterMap (fun r =>
    if f.start ≤ r.1 ∧ r.1 < f.stop then firstCat r.2 else none)).getLast?

/-- Specification-side helper following the words of claim C8: the
category of the *first* extracted run (in ascending start-offset
order) whose start offset falls within the function's half-open range
and which contains a keyword of the table. -/
def firstMatchCat (runs : List (Nat × String)) (f : AFunction) : Option String :=
  (runs.filterMap (fun r =>
    if f.start ≤ r.1 ∧ r.1 < f.stop then firstCat r.2 else none)).head?

/-! ## lift.py: formatting helpers -/

/-- Uppercase hex digit for a value below 16. -/
def hexChar (n : Nat) : Char := if n < 10 then Char.ofNat (48 + n) else Char.ofNat (55 + n)

/-- Accumulate the uppercase hex digits of `n` (most significant
first); `fuel` bounds the digit count and `n + 1` always suffices. -/
def hexAux : Nat → Nat → List Char → List Char
  | 0, _, acc => acc
  | fuel + 1, n, acc => if n = 0 then acc else hexAux fuel (n / 16) (hexChar (n % 16) :: acc)

/-- Python `'%X' % n` (uppercase hex, no padding) for `n : Nat`. -/
def hexUp (n : Nat) : String := if n = 0 then "0" else String.mk (hexAux (n + 1) n [])

/-- Python `'%0*X' % (w, n)`: uppercase hex, zero-padded to width `w`. -/
def hexPad (w n : Nat) : String :=
  let s := hexUp n
  String.mk (List.replicate (w - s.length) '0') ++ s

/-- Python `'%0*d' % (w, n)`: decimal, zero-padded to width `w`. -/
def decPad (w n : Nat) : String :=
  let s := toString n
  String.mk (List.replicate (w - s.length) '0') ++ s

/-- Python `x & 0xFFFF` of an `Int`, as a `Nat`. -/
def mask16 (x : Int) : Nat := (x.emod 65536).toNat

/-! ## lift.py: operand and instruction display (`__repr__`) -/

/-- `Operand.__repr__` of `decode16.py` (used by the lifter for the
per-line disassembly comments). -/
def opRepr (o : Operand) : String :=
  match o.type with
  | .REG8 => REG8_NAMES.getD o.reg ""
  | .REG16 => REG16_NAMES.getD o.reg ""
  | .SREG => SREG_NAMES.getD o.reg ""
  | .IMM8 => "0x" ++ hexUp (mask16 o.disp)
  | .IMM16 => "0x" ++ hexUp (mask16 o.disp)
  | .REL8 => "0x" ++ hexPad 4 (mask16 o.disp)
  | .REL16 => "0x" ++ hexPad 4 (mask16 o.disp)
  | .FAR => hexPad 4 o.far_seg ++ ":" ++ hexPad 4 o.disp.toNat
  | .MEM =>
    let pre := if o.seg ≠ "" then o.seg ++ ":" else ""
    let sz := if o.size = 1 then "byte " else if o.size = 2 then "word " else ""
    let parts := (if o.base ≠ "" then [o.base] else []) ++
                 (if o.index ≠ "" then [o.index] else [])
    let parts :=
      if o.disp ≠ 0 ∨ parts.isEmpty then
        parts ++ [if o.disp < 0 ∧ ¬parts.isEmpty then "-0x" ++ hexUp (mask16 (-o.disp))
                  else "0x" ++ hexUp (mask16 o.disp)]
      else parts
    sz ++ pre ++ "[" ++ String.intercalate "+" parts ++ "]"
  | .MOFFS =>
    let pre := if o.seg ≠ "" then o.seg ++ ":" else "ds:"
    let sz := if o.size = 1 then "byte " else if o.size = 2 then "word " else ""
    sz ++ pre ++ "[0x" ++ hexUp (mask16 o.disp) ++ "]"
  | .NONE => "?"

/-- `repr` of an optional operand (Python renders `None` as `None`). -/
def optOpRepr : Option Operand → String
  | some o => opRepr o
  | none => "None"

/-- `Instruction.__repr__` of `decode16.py`. -/
def instRepr (i : Instruction) : String :=
  let parts := (if i.rep ≠ "" then [i.rep] else []) ++ [i.mnemonic] ++
    (match i.op1 with
     | some o1 =>
       [opRepr o1 ++ (match i.op2 with
                      | some o2 => ", " ++ opRepr o2
                      | none => "")]
     | none => [])
  String.intercalate " " parts

/-! ## lift.py: operand access expressions -/

/-- `_reg8`: C expression for an 8-bit register access. -/
def reg8s (o : Operand) : String := "cpu->" ++ REG8_NAMES.getD o.reg ""

/-- `_reg16`: C expression for a 16-bit register access. -/
def reg16s (o : Operand) : String := "cpu->" ++ REG16_NAMES.getD o.reg ""

/-- `_sreg`: C expression for a segment register access. -/
def sregs (o : Operand) : String := "cpu->" ++ SREG_NAMES.getD o.reg ""

/-- `_mem_addr`: `(segment expression, offset expression)` for a
memory operand. -/
def memAddr (o : Operand) : String × String :=
  let seg := if o.seg ≠ "" then "cpu->" ++ o.seg else "cpu->ds"
  let parts := (if o.base ≠ "" then ["cpu->" ++ o.base] else []) ++
               (if o.index ≠ "" then ["cpu->" ++ o.index] else [])
  let off :=
    if o.disp ≠ 0 then
      let disp_str :=
        if o.disp < 0 then "- 0x" ++ hexUp (mask16 (-o.disp))
        else "+ 0x" ++ hexUp (mask16 o.disp)
      if ¬parts.isEmpty then
        "(uint16_t)(" ++ String.intercalate " + " parts ++ " " ++ disp_str ++ ")"
      else "0x" ++ hexUp (mask16 o.disp)
    else if ¬parts.isEmpty then
      if parts.length = 1 then parts.getD 0 ""
      else "(uint16_t)(" ++ String.intercalate " + " parts ++ ")"
    else "0"
  (seg, off)

/-- `_read`: C expression reading an operand value. -/
def readOp (o : Operand) : String :=
  match o.type with
  | .REG8 => reg8s o
  | .REG16 => reg16s o
  | .SREG => sregs o
  | .IMM8 => "0x" ++ hexUp (mask16 o.disp)
  | .IMM16 => "0x" ++ hexUp (mask16 o.disp)
  | .MEM | .MOFFS =>
    let (seg, off) := memAddr o
    if o.size = 1 then "mem_read8(cpu, " ++ seg ++ ", " ++ off ++ ")"
    else "mem_read16(cpu, " ++ seg ++ ", " ++ off ++ ")"
  | _ => "/* ??? */"

/-- `_write`: C statement writing a value to an operand. -/
def writeOp (o : Operand) (val : String) : String :=
  match o.type with
  | .REG8 => reg8s o ++ " = (uint8_t)(" ++ val ++ ");"
  | .REG16 => reg16s o ++ " = (uint16_t)(" ++ val ++ ");"
  | .SREG => sregs o ++ " = (uint16_t)(" ++ val ++ ");"
  | .MEM | .MOFFS =>
    let (seg, off) := memAddr o
    if o.size = 1 then "mem_write8(cpu, " ++ seg ++ ", " ++ off ++ ", (uint8_t)(" ++ val ++ "));"
    else "mem_write16(cpu, " ++ seg ++ ", " ++ off ++ ", (uint16_t)(" ++ val ++ "));"
  | _ => "/* write ??? = " ++ val ++ " */;"

/-- `_label`: the label name for an address. -/
def labelName (a : Int) : String := "L_" ++ hexPad 4 a.toNat

/-- The `CC_MAP` table: condition-code predicate helper for a
conditional-branch mnemonic. -/
def ccMap (m : String) : String :=
  if m = "jo" then "cc_o" else if m = "jno" then "cc_no"
  else if m = "jb" then "cc_b" else if m = "jae" then "cc_ae"
  else if m = "je" then "cc_e" else if m = "jne" then "cc_ne"
  else if m = "jbe" then "cc_be" else if m = "ja" then "cc_a"
  else if m = "js" then "cc_s" else if m = "jns" then "cc_ns"
  else if m = "jp" then "cc_p" else if m = "jnp" then "cc_np"
  else if m = "jl" then "cc_l" else if m = "jge" then "cc_ge"
  else if m = "jle" then "cc_le" else if m = "jg" then "cc_g"
  else ""

/-- The conditional-branch mnemonics (the tuple tested by
`lift_instruction`). -/
def CC_LIST : List String :=
  ["jo", "jno", "jb", "jae", "je", "jne", "jbe", "ja",
   "js", "jns", "jp", "jnp", "jl", "jge", "jle", "jg"]

/-! ## lift.py: the Lifter state -/

/-- One entry of the `Lifter.output` list.  `stmt` models a line
produced by `Lifter._emit` (indent level, code, optional comment);
`raw` models a direct `output.append` (labels and the function
header/braces).  `renderLine` below produces the final text exactly as
`_emit` formats it. -/
inductive EmitLine where
  | stmt (indentN : Nat) (code : String) (comment : String)
  | raw (s : String)
deriving DecidableEq, Repr

/-- `Lifter._emit`'s text formatting: indent with four spaces per
level; when a comment is present, pad the line to column 44 and append
the comment. -/
def renderLine : EmitLine → String
  | .stmt n code comment =>
    let pad := String.mk (List.replicate (4 * n) ' ')
    let line := pad ++ code
    if comment ≠ "" then
      let line :=
        if line.length < 44 then line ++ String.mk (List.replicate (44 - line.length) ' ')
        else line
      line ++ " /* " ++ comment ++ " */"
    else line
  | .raw s => s

/-- The mutable state of the `Lifter` object.  The Python
`labels_needed`, `func_calls` and `ovl_calls` sets are modelled as
duplicate-free lists (only membership is ever queried). -/
structure Lifter where
  output : List EmitLine := []
  indentN : Nat := 1
  labelsNeeded : List Int := []
  funcCalls : List String := []
  ovlCalls : List String := []
deriving DecidableEq, Repr

/-- `Lifter._emit`. -/
def emit (L : Lifter) (code : String) (comment : String := "") : Lifter :=
  { L with output := L.output ++ [.stmt L.indentN code comment] }

/-- `Lifter._emit_label`: emit `L_xxxx:;` when the address is a
recorded branch target. -/
def emitLabel (L : Lifter) (addr : Nat) : Lifter :=
  if (addr : Int) ∈ L.labelsNeeded then
    { L with output := L.output ++ [.raw (labelName addr ++ ":;")] }
  else L

/-- `self.labels_needed.add(target)`. -/
def addLabel (L : Lifter) (t : Int) : Lifter :=
  if t ∈ L.labelsNeeded then L else { L with labelsNeeded := L.labelsNeeded ++ [t] }

/-- `self.func_calls.add(name)`. -/
def addFuncCall (L : Lifter) (n : String) : Lifter :=
  if n ∈ L.funcCalls then L else { L with funcCalls := L.funcCalls ++ [n] }

/-- `self.ovl_calls.add(name)`. -/
def addOvlCall (L : Lifter) (n : String) : Lifter :=
  if n ∈ L.ovlCalls then L else { L with ovlCalls := L.ovlCalls ++ [n] }

/-! ## lift.py: `Lifter.lift_instruction` -/

/-- `Lifter.lift_instruction`: translate one decoded instruction into
emitted statements against the CPU state.  Branches appear in source
order; literal braces in the generated C text are written with their
hex escapes. -/
def liftInstruction (L : Lifter) (inst : Instruction) (funcStart : Nat) : Lifter :=
  let m := inst.mnemonic
  let o1 := inst.op1.getD {}
  let o2 := inst.op2.getD {}
  -- Emit label if this address is a jump target
  let L := emitLabel L inst.address
  -- Format original instruction as comment
  let orig := instRepr inst
  -- Data movement
  if m = "mov" then emit L (writeOp o1 (readOp o2)) orig
  else if m = "xchg" then
    emit L ("\x7b uint16_t _t = " ++ readOp o1 ++ "; " ++
            writeOp o1 (readOp o2) ++ " " ++ writeOp o2 "_t" ++ " \x7d") orig
  else if m = "lea" then
    -- LEA computes effective address without memory access
    let (_, off) := memAddr o2
    emit L (writeOp o1 off) orig
  else if m = "lds" then
    let (seg, off) := memAddr o2
    let L := emit L (reg16s o1 ++ " = mem_read16(cpu, " ++ seg ++ ", " ++ off ++ ");") orig
    emit L ("cpu->ds = mem_read16(cpu, " ++ seg ++ ", (uint16_t)(" ++ off ++ " + 2));")
  else if m = "les" then
    let (seg, off) := memAddr o2
    let L := emit L (reg16s o1 ++ " = mem_read16(cpu, " ++ seg ++ ", " ++ off ++ ");") orig
    emit L ("cpu->es = mem_read16(cpu, " ++ seg ++ ", (uint16_t)(" ++ off ++ " + 2));")
  else if m = "cbw" then emit L "cpu->ax = (uint16_t)(int16_t)(int8_t)cpu->al;" orig
  else if m = "cwd" then emit L "cpu->dx = (cpu->ax & 0x8000) ? 0xFFFF : 0x0000;" orig
  -- Stack
  else if m = "push" then emit L ("push16(cpu, " ++ readOp o1 ++ ");") orig
  else if m = "pop" then emit L (writeOp o1 "pop16(cpu)") orig
  else if m = "pushf" then emit L "push16(cpu, cpu->flags);" orig
  else if m = "popf" then emit L "cpu->flags = pop16(cpu);" orig
  else if m = "pusha" then
    emit L ("\x7b uint16_t _sp = cpu->sp; " ++
            "push16(cpu, cpu->ax); push16(cpu, cpu->cx); " ++
            "push16(cpu, cpu->dx); push16(cpu, cpu->bx); " ++
            "push16(cpu, _sp); push16(cpu, cpu->bp); " ++
            "push16(cpu, cpu->si); push16(cpu, cpu->di); \x7d") orig
  else if m = "popa" then
    emit L ("cpu->di = pop16(cpu); cpu->si = pop16(cpu); " ++
            "cpu->bp = pop16(cpu); (void)pop16(cpu); /* skip SP */ " ++
            "cpu->bx = pop16(cpu); cpu->dx = pop16(cpu); " ++
            "cpu->cx = pop16(cpu); cpu->ax = pop16(cpu);") orig
  -- Arithmetic
  else if m = "add" then
    if o1.size = 1 ∨ o1.type = .REG8 then
      emit L (writeOp o1 ("flags_add8(cpu, " ++ readOp o1 ++ ", " ++ readOp o2 ++ ")")) orig
    else
      emit L (writeOp o1 ("flags_add16(cpu, " ++ readOp o1 ++ ", " ++ readOp o2 ++ ")")) orig
  else if m = "adc" then
    if o1.size = 1 ∨ o1.type = .REG8 then
      emit L (writeOp o1 ("flags_add8(cpu, " ++ readOp o1 ++ ", " ++ readOp o2 ++ " + cf(cpu))")) orig
    else
      emit L (writeOp o1 ("flags_add16(cpu, " ++ readOp o1 ++ ", " ++ readOp o2 ++ " + cf(cpu))")) orig
  else if m = "sub" then
    if o1.size = 1 ∨ o1.type = .REG8 then
      emit L (writeOp o1 ("flags_sub8(cpu, " ++ readOp o1 ++ ", " ++ readOp o2 ++ ")")) orig
    else
      emit L (writeOp o1 ("flags_sub16(cpu, " ++ readOp o1 ++ ", " ++ readOp o2 ++ ")")) orig
  else if m = "sbb" then
    if o1.size = 1 ∨ o1.type = .REG8 then
      emit L (writeOp o1 ("flags_sub8(cpu, " ++ readOp o1 ++ ", " ++ readOp o2 ++ " + cf(cpu))")) orig
    else
      emit L (writeOp o1 ("flags_sub16(cpu, " ++ readOp o1 ++ ", " ++ readOp o2 ++ " + cf(cpu))")) orig
  else if m = "cmp" then
    if o1.size = 1 ∨ o1.type = .REG8 then
      emit L ("flags_cmp8(cpu, " ++ readOp o1 ++ ", " ++ readOp o2 ++ ");") orig
    else
      emit L ("flags_cmp16(cpu, " ++ readOp o1 ++ ", " ++ readOp o2 ++ ");") orig
  else if m = "inc" then
    if o1.size = 1 ∨ o1.type = .REG8 then
      emit L ("\x7b int _cf = cf(cpu); " ++
              writeOp o1 ("flags_add8(cpu, " ++ readOp o1 ++ ", 1)") ++
              " if (_cf) cpu->flags |= FLAG_CF; " ++
              "else cpu->flags &= ~FLAG_CF; \x7d") orig
    else
      emit L ("\x7b int _cf = cf(cpu); " ++
              writeOp o1 ("flags_add16(cpu, " ++ readOp o1 ++ ", 1)") ++
              " if (_cf) cpu->flags |= FLAG_CF; " ++
              "else cpu->flags &= ~FLAG_CF; \x7d") orig
  else if m = "dec" then
    if o1.size = 1 ∨ o1.type = .REG8 then
      emit L ("\x7b int _cf = cf(cpu); " ++
              writeOp o1 ("flags_sub8(cpu, " ++ readOp o1 ++ ", 1)") ++
              " if (_cf) cpu->flags |= FLAG_CF; " ++
              "else cpu->flags &= ~FLAG_CF; \x7d") orig
    else
      emit L ("\x7b int _cf = cf(cpu); " ++
              writeOp o1 ("flags_sub16(cpu, " ++ readOp o1 ++ ", 1)") ++
              " if (_cf) cpu->flags |= FLAG_CF; " ++
              "else cpu->flags &= ~FLAG_CF; \x7d") orig
  else if m = "neg" then
    if o1.size = 1 ∨ o1.type = .REG8 then
      emit L (writeOp o1 ("flags_sub8(cpu, 0, " ++ readOp o1 ++ ")")) orig
    else
      emit L (writeOp o1 ("flags_sub16(cpu, 0, " ++ readOp o1 ++ ")")) orig
  else if m = "mul" then
    if o1.size = 1 ∨ o1.type = .REG8 then
      emit L ("\x7b uint16_t _r = (uint16_t)cpu->al * " ++ readOp o1 ++ "; " ++
              "cpu->ax = _r; " ++
              "cpu->flags = (cpu->flags & ~(FLAG_CF|FLAG_OF)) | " ++
              "(_r > 0xFF ? FLAG_CF|FLAG_OF : 0); \x7d") orig
    else
      emit L ("\x7b uint32_t _r = (uint32_t)cpu->ax * " ++ readOp o1 ++ "; " ++
              "cpu->ax = (uint16_t)_r; cpu->dx = (uint16_t)(_r >> 16); " ++
              "cpu->flags = (cpu->flags & ~(FLAG_CF|FLAG_OF)) | " ++
              "(cpu->dx ? FLAG_CF|FLAG_OF : 0); \x7d") orig
  else if m = "imul" then
    if o1.size = 1 ∨ o1.type = .REG8 then
      emit L ("\x7b int16_t _r = (int16_t)(int8_t)cpu->al * " ++
              "(int8_t)" ++ readOp o1 ++ "; " ++
              "cpu->ax = (uint16_t)_r; " ++
              "cpu->flags = (cpu->flags & ~(FLAG_CF|FLAG_OF)) | " ++
              "((uint16_t)_r != (uint16_t)(int16_t)(int8_t)_r ? " ++
              "FLAG_CF|FLAG_OF : 0); \x7d") orig
    else
      emit L ("\x7b int32_t _r = (int32_t)(int16_t)cpu->ax * " ++
              "(int16_t)" ++ readOp o1 ++ "; " ++
              "cpu->ax = (uint16_t)_r; " ++
              "cpu->dx = (uint16_t)((uint32_t)_r >> 16); " ++
              "cpu->flags = (cpu->flags & ~(FLAG_CF|FLAG_OF)) | " ++
              "((uint32_t)_r != (uint32_t)(int32_t)(int16_t)_r ? " ++
              "FLAG_CF|FLAG_OF : 0); \x7d") orig
  else if m = "div" then
    if o1.size = 1 ∨ o1.type = .REG8 then
      emit L ("\x7b uint16_t _n = cpu->ax; uint8_t _d = " ++ readOp o1 ++ "; " ++
              "cpu->al = (uint8_t)(_n / _d); " ++
              "cpu->ah = (uint8_t)(_n % _d); \x7d") orig
    else
      emit L ("\x7b uint32_t _n = ((uint32_t)cpu->dx << 16) | cpu->ax; " ++
              "uint16_t _d = " ++ readOp o1 ++ "; " ++
              "cpu->ax = (uint16_t)(_n / _d); " ++
              "cpu->dx = (uint16_t)(_n % _d); \x7d") orig
  else if m = "idiv" then
    if o1.size = 1 ∨ o1.type = .REG8 then
      emit L ("\x7b int16_t _n = (int16_t)cpu->ax; " ++
              "int8_t _d = (int8_t)" ++ readOp o1 ++ "; " ++
              "cpu->al = (uint8_t)(int8_t)(_n / _d); " ++
              "cpu->ah = (uint8_t)(int8_t)(_n % _d); \x7d") orig
    else
      emit L ("\x7b int32_t _n = (int32_t)(((uint32_t)cpu->dx << 16) " ++
              "| cpu->ax); int16_t _d = (int16_t)" ++ readOp o1 ++ "; " ++
              "cpu->ax = (uint16_t)(int16_t)(_n / _d); " ++
              "cpu->dx = (uint16_t)(int16_t)(_n % _d); \x7d") orig
  -- Logic
  else if m = "and" then
    let val := readOp o1 ++ " & " ++ readOp o2
    let sz := if o1.size = 1 ∨ o1.type = .REG8 then "8" else "16"
    emit L ("\x7b uint" ++ sz ++ "_t _r = " ++ val ++ "; " ++
            "flags_logic" ++ sz ++ "(cpu, _r); " ++ writeOp o1 "_r" ++ " \x7d") orig
  else if m = "or" then
    let val := readOp o1 ++ " | " ++ readOp o2
    let sz := if o1.size = 1 ∨ o1.type = .REG8 then "8" else "16"
    emit L ("\x7b uint" ++ sz ++ "_t _r = " ++ val ++ "; " ++
            "flags_logic" ++ sz ++ "(cpu, _r); " ++ writeOp o1 "_r" ++ " \x7d") orig
  else if m = "xor" then
    let val := readOp o1 ++ " ^ " ++ readOp o2
    let sz := if o1.size = 1 ∨ o1.type = .REG8 then "8" else "16"
    emit L ("\x7b uint" ++ sz ++ "_t _r = " ++ val ++ "; " ++
            "flags_logic" ++ sz ++ "(cpu, _r); " ++ writeOp o1 "_r" ++ " \x7d") orig
  else if m = "test" then
    let val := readOp o1 ++ " & " ++ readOp o2
    let sz := if o1.size = 1 ∨ o1.type = .REG8 then "8" else "16"
    emit L ("flags_logic" ++ sz ++ "(cpu, " ++ val ++ ");") orig
  else if m = "not" then emit L (writeOp o1 ("~" ++ readOp o1)) orig
  -- Shifts
  else if m = "shl" ∨ m = "sal" then
    let r := readOp o1
    let cnt := readOp o2
    let sz := if o1.size = 1 ∨ o1.type = .REG8 then "8" else "16"
    let bits := if sz = "8" then "8" else "16"
    emit L ("\x7b uint" ++ sz ++ "_t _v = " ++ r ++ "; uint8_t _c = " ++ cnt ++ "; " ++
            "uint" ++ sz ++ "_t _r = _v << _c; " ++
            "cpu->flags = (cpu->flags & ~FLAG_CF) | " ++
            "((_v >> (" ++ bits ++ " - _c)) & 1 ? FLAG_CF : 0); " ++
            "flags_shift" ++ sz ++ "(cpu, _r); " ++ writeOp o1 "_r" ++ " \x7d") orig
  else if m = "shr" then
    let r := readOp o1
    let cnt := readOp o2
    let sz := if o1.size = 1 ∨ o1.type = .REG8 then "8" else "16"
    emit L ("\x7b uint" ++ sz ++ "_t _v = " ++ r ++ "; uint8_t _c = " ++ cnt ++ "; " ++
            "uint" ++ sz ++ "_t _r = _v >> _c; " ++
            "cpu->flags = (cpu->flags & ~FLAG_CF) | " ++
            "((_v >> (_c - 1)) & 1 ? FLAG_CF : 0); " ++
            "flags_shift" ++ sz ++ "(cpu, _r); " ++ writeOp o1 "_r" ++ " \x7d") orig
  else if m = "sar" then
    let r := readOp o1
    let cnt := readOp o2
    let sz := if o1.size = 1 ∨ o1.type = .REG8 then "8" else "16"
    let stype := if sz = "8" then "int8_t" else "int16_t"
    emit L ("\x7b " ++ stype ++ " _v = (" ++ stype ++ ")" ++ r ++ "; uint8_t _c = " ++ cnt ++ "; " ++
            stype ++ " _r = _v >> _c; " ++
            "cpu->flags = (cpu->flags & ~FLAG_CF) | " ++
            "((_v >> (_c - 1)) & 1 ? FLAG_CF : 0); " ++
            "flags_shift" ++ sz ++ "(cpu, (uint" ++ sz ++ "_t)_r); " ++
            writeOp o1 ("(uint" ++ sz ++ "_t)_r") ++ " \x7d") orig
  else if m = "rol" ∨ m = "ror" ∨ m = "rcl" ∨ m = "rcr" then
    -- Rotate instructions - emit as helper call
    let r := readOp o1
    let cnt := readOp o2
    emit L ("/* TODO: " ++ m ++ " " ++ r ++ ", " ++ cnt ++ " */") orig
  -- Control flow
  else if m = "jmp" then
    match inst.op1 with
    | some o =>
      if o.type = .REL8 ∨ o.type = .REL16 then
        let L := addLabel L o.disp
        emit L ("goto " ++ labelName o.disp ++ ";") orig
      else if o.type = .MEM then
        emit L ("/* indirect jmp via " ++ readOp o ++ " - needs dispatch */") orig
      else emit L ("/* jmp " ++ optOpRepr inst.op1 ++ " */") orig
    | none => emit L ("/* jmp " ++ optOpRepr inst.op1 ++ " */") orig
  else if CC_LIST.contains m then
    let target := o1.disp
    let L := addLabel L target
    emit L ("if (" ++ ccMap m ++ "(cpu)) goto " ++ labelName target ++ ";") orig
  else if m = "loop" then
    let target := o1.disp
    let L := addLabel L target
    emit L ("cpu->cx--; if (cpu->cx != 0) goto " ++ labelName target ++ ";") orig
  else if m = "loopz" then
    let target := o1.disp
    let L := addLabel L target
    emit L ("cpu->cx--; if (cpu->cx != 0 && zf(cpu)) goto " ++ labelName target ++ ";") orig
  else if m = "loopnz" then
    let target := o1.disp
    let L := addLabel L target
    emit L ("cpu->cx--; if (cpu->cx != 0 && !zf(cpu)) goto " ++ labelName target ++ ";") orig
  else if m = "jcxz" then
    let target := o1.disp
    let L := addLabel L target
    emit L ("if (cpu->cx == 0) goto " ++ labelName target ++ ";") orig
  else if m = "call" then
    match inst.op1 with
    | some o =>
      if o.type = .REL16 then
        let target := (funcStart : Int) + o.disp
        let func_name := "res_" ++ hexPad 6 target.toNat
        let L := addFuncCall L func_name
        emit L (func_name ++ "(cpu);") orig
      else if o.type = .FAR then
        let func_name := "far_" ++ hexPad 4 o.far_seg ++ "_" ++ hexPad 4 o.disp.toNat
        let L := addFuncCall L func_name
        emit L (func_name ++ "(cpu);") orig
      else emit L ("/* indirect call " ++ optOpRepr inst.op1 ++ " - needs dispatch */") orig
    | none => emit L ("/* indirect call " ++ optOpRepr inst.op1 ++ " - needs dispatch */") orig
  else if m = "ret" then
    match inst.op1 with
    | some _ => emit L ("cpu->sp += " ++ readOp o1 ++ "; return;") orig
    | none => emit L "return;" orig
  else if m = "retf" then
    match inst.op1 with
    | some _ => emit L ("cpu->sp += " ++ readOp o1 ++ "; return;") orig
    | none => emit L "return;" orig
  else if m = "int" then
    let int_num := o1.disp
    if int_num = 0x3F ∧ 0 ≤ inst.overlay_num then
      -- Overlay call - resolved to direct function call
      let func_name := "ovl" ++ decPad 2 inst.overlay_num.toNat ++ "_" ++ hexPad 4 inst.overlay_off
      let L := addOvlCall L func_name
      emit L (func_name ++ "(cpu);")
        ("INT 3Fh -> OVL " ++ hexPad 2 inst.overlay_num.toNat ++ ":" ++ hexPad 4 inst.overlay_off)
    else if int_num = 0x21 then emit L "dos_int21(cpu);" orig
    else if int_num = 0x10 then emit L "bios_int10(cpu);" orig
    else if int_num = 0x16 then emit L "bios_int16(cpu);" orig
    else if int_num = 0x33 then emit L "mouse_int33(cpu);" orig
    else emit L ("int_handler(cpu, 0x" ++ hexPad 2 int_num.toNat ++ ");") orig
  -- String ops
  else if m = "movsb" then
    emit L ("mem_write8(cpu, cpu->es, cpu->di, " ++
            "mem_read8(cpu, cpu->ds, cpu->si)); " ++
            "cpu->si += df(cpu) ? -1 : 1; " ++
            "cpu->di += df(cpu) ? -1 : 1;") orig
  else if m = "movsw" then
    emit L ("mem_write16(cpu, cpu->es, cpu->di, " ++
            "mem_read16(cpu, cpu->ds, cpu->si)); " ++
            "cpu->si += df(cpu) ? -2 : 2; " ++
            "cpu->di += df(cpu) ? -2 : 2;") orig
  else if m = "stosb" then
    emit L ("mem_write8(cpu, cpu->es, cpu->di, cpu->al); " ++
            "cpu->di += df(cpu) ? -1 : 1;") orig
  else if m = "stosw" then
    emit L ("mem_write16(cpu, cpu->es, cpu->di, cpu->ax); " ++
            "cpu->di += df(cpu) ? -2 : 2;") orig
  else if m = "lodsb" then
    emit L ("cpu->al = mem_read8(cpu, cpu->ds, cpu->si); " ++
            "cpu->si += df(cpu) ? -1 : 1;") orig
  else if m = "lodsw" then
    emit L ("cpu->ax = mem_read16(cpu, cpu->ds, cpu->si); " ++
            "cpu->si += df(cpu) ? -2 : 2;") orig
  else if m = "scasb" then
    emit L ("flags_cmp8(cpu, cpu->al, mem_read8(cpu, cpu->es, cpu->di)); " ++
            "cpu->di += df(cpu) ? -1 : 1;") orig
  else if m = "scasw" then
    emit L ("flags_cmp16(cpu, cpu->ax, mem_read16(cpu, cpu->es, cpu->di)); " ++
            "cpu->di += df(cpu) ? -2 : 2;") orig
  else if m = "cmpsb" then
    emit L ("flags_cmp8(cpu, mem_read8(cpu, cpu->ds, cpu->si), " ++
            "mem_read8(cpu, cpu->es, cpu->di)); " ++
            "cpu->si += df(cpu) ? -1 : 1; " ++
            "cpu->di += df(cpu) ? -1 : 1;") orig
  else if m = "cmpsw" then
    emit L ("flags_cmp16(cpu, mem_read16(cpu, cpu->ds, cpu->si), " ++
            "mem_read16(cpu, cpu->es, cpu->di)); " ++
            "cpu->si += df(cpu) ? -2 : 2; " ++
            "cpu->di += df(cpu) ? -2 : 2;") orig
  -- Flags
  else if m = "clc" then emit L "cpu->flags &= ~FLAG_CF;" orig
  else if m = "stc" then emit L "cpu->flags |= FLAG_CF;" orig
  else if m = "cmc" then emit L "cpu->flags ^= FLAG_CF;" orig
  else if m = "cld" then emit L "cpu->flags &= ~FLAG_DF;" orig
  else if m = "std" then emit L "cpu->flags |= FLAG_DF;" orig
  else if m = "cli" then emit L "cpu->flags &= ~FLAG_IF;" orig
  else if m = "sti" then emit L "cpu->flags |= FLAG_IF;" orig
  else if m = "sahf" then emit L "cpu->flags = (cpu->flags & 0xFF00) | cpu->ah;" orig
  else if m = "lahf" then emit L "cpu->ah = (uint8_t)(cpu->flags & 0xFF);" orig
  -- Misc
  else if m = "nop" then emit L "/* nop */" orig
  else if m = "xlat" then
    emit L ("cpu->al = mem_read8(cpu, cpu->ds, " ++
            "(uint16_t)(cpu->bx + cpu->al));") orig
  else if m = "hlt" then emit L "cpu->halted = 1; return;" orig
  else if m = "iret" then
    let L := emit L "/* iret - return from interrupt */" orig
    emit L "return;"
  else if m = "enter" then
    emit L ("push16(cpu, cpu->bp); cpu->bp = cpu->sp; " ++
            "cpu->sp -= 0x" ++ hexUp o1.disp.toNat ++ ";") orig
  else if m = "leave" then emit L "cpu->sp = cpu->bp; cpu->bp = pop16(cpu);" orig
  else if m = "in" ∨ m = "out" then
    emit L ("/* " ++ orig ++ " - port I/O stub */") orig
  else if m = "wait" then emit L "/* wait */" orig
  else if m.startsWith "esc_" then emit L ("/* FPU: " ++ orig ++ " */") orig
  else if m = "db" then
    emit L ("/* data byte: 0x" ++ hexPad 2 o1.disp.toNat ++ " */") orig
  else if m.startsWith "daa" ∨ m.startsWith "das" ∨
          m.startsWith "aaa" ∨ m.startsWith "aas" ∨
          m.startsWith "aam" ∨ m.startsWith "aad" then
    emit L ("/* BCD: " ++ orig ++ " - stub */") orig
  else emit L ("/* UNHANDLED: " ++ orig ++ " */") orig

/-! ## lift.py: `Lifter.lift_function` -/

/-- The mnemonics whose relative targets are collected into
`labels_needed` by pass 1 of `lift_function`. -/
def JUMP_LIST : List String :=
  ["jmp", "jo", "jno", "jb", "jae", "je", "jne", "jbe", "ja",
   "js", "jns", "jp", "jnp", "jl", "jge", "jle", "jg",
   "loop", "loopz", "loopnz", "jcxz"]

/-- Pass 1 of `lift_function`: collect intra-function branch targets. -/
def collectLabels (insts : List Instruction) : List Int :=
  insts.foldl (fun acc inst =>
    if JUMP_LIST.contains inst.mnemonic then
      match inst.op1 with
      | some o =>
        if o.type == .REL8 || o.type == .REL16 then
          if o.disp ∈ acc then acc else acc ++ [o.disp]
        else acc
      | none => acc
    else acc) []

/-- The per-instruction step of pass 2 of `lift_function`: repeat
prefixes on string primitives wrap the lifted body in a
`while (cpu->cx != 0)` loop (with the zero-flag break condition for
the compare/scan forms); everything else goes through
`lift_instruction` directly.  The stripped copy passed to the body has
its repeat marker cleared, as in the source. -/
def processInst (funcStart : Nat) (L : Lifter) (inst : Instruction) : Lifter :=
  if inst.rep == "rep" && ["movsb", "movsw", "stosb", "stosw"].contains inst.mnemonic then
    let L := emitLabel L inst.address
    let L := emit L "while (cpu->cx != 0) \x7b cpu->cx--;" ("rep " ++ inst.mnemonic)
    let L := { L with indentN := L.indentN + 1 }
    let L := liftInstruction L { inst with rep := "" } funcStart
    let L := { L with indentN := L.indentN - 1 }
    emit L "\x7d"
  else if inst.rep == "rep" && ["scasb", "scasw", "cmpsb", "cmpsw"].contains inst.mnemonic then
    let L := emitLabel L inst.address
    let L := emit L "while (cpu->cx != 0) \x7b cpu->cx--;" ("repz " ++ inst.mnemonic)
    let L := { L with indentN := L.indentN + 1 }
    let L := liftInstruction L { inst with rep := "" } funcStart
    let L := emit L "if (!zf(cpu)) break;"
    let L := { L with indentN := L.indentN - 1 }
    emit L "\x7d"
  else if inst.rep == "repnz" && ["scasb", "scasw", "cmpsb", "cmpsw"].contains inst.mnemonic then
    let L := emitLabel L inst.address
    let L := emit L "while (cpu->cx != 0) \x7b cpu->cx--;" ("repnz " ++ inst.mnemonic)
    let L := { L with indentN := L.indentN + 1 }
    let L := liftInstruction L { inst with rep := "" } funcStart
    let L := emit L "if (zf(cpu)) break;"
    let L := { L with indentN := L.indentN - 1 }
    emit L "\x7d"
  else liftInstruction L inst funcStart

/-- `Lifter.lift_function`: reset the state, collect branch targets,
emit the function header, lift every instruction, and close the body.
(The source also builds an unused `rep_instructions` list between the
passes; it has no effect and is omitted.)  Returns the final `Lifter`
state; the method's string result is `renderFunction` below. -/
def liftFunction (name : String) (insts : List Instruction) (funcStart : Nat) : Lifter :=
  let L : Lifter := { labelsNeeded := collectLabels insts }
  let L := { L with output := L.output ++ [.raw ("void " ++ name ++ "(CPU *cpu)"), .raw "\x7b"] }
  let L := insts.foldl (processInst funcStart) L
  { L with output := L.output ++ [.raw "\x7d"] }

/-- The text produced by `lift_function`: the rendered lines joined
with newlines. -/
def renderFunction (L : Lifter) : String :=
  String.intercalate "\n" (L.output.map renderLine)

/-! ## resolve_stubs.py -/

/-- `LOAD_SEG`: the DOS load segment constant. -/
def LOAD_SEG : Nat := 0x0100

/-- `compute_file_offset`: convert `segment:offset` to a file offset
(the default `hdr_size` in the source is 0x200). -/
def compute_file_offset (seg off : Nat) (hdr_size : Nat := 0x200) : Nat :=
  let mem_addr := (seg + LOAD_SEG) * 16 + off
  mem_addr - LOAD_SEG * 16 + hdr_size

/-! ## Basic facts about the decoding monad -/

theorem DecM.pure_apply {α : Type} (a : α) (p : Nat) :
    (pure a : DecM α) p = some ⟨a, p, Nat.le_refl p⟩ := rfl

theorem DecM.bind_apply {α β : Type} (x : DecM α) (f : α → DecM β) (p : Nat) :
    (x >>= f) p =
      match x p with
      | none => none
      | some r =>
        match f r.val r.pos with
        | none => none
        | some s => some ⟨s.val, s.pos, Nat.le_trans r.hle s.hle⟩ := rfl


@[simp] theorem dval_none {α : Type} {p : Nat} : dval (α := α) (p := p) none = none := rfl

@[simp] theorem dval_some {α : Type} {p : Nat} (r : DRes α p) :
    dval (some r) = some r.val := rfl

@[simp] theorem dpos_none {α : Type} {p : Nat} : dpos (α := α) (p := p) none = none := rfl

@[simp] theorem dpos_some {α : Type} {p : Nat} (r : DRes α p) :
    dpos (some r) = some r.pos := rfl


/-! ## Cursor-progress facts about `decode_one` and the sweep -/

/-- When `decode_one` produces an instruction, the recorded length is
exactly the cursor advance, the cursor strictly advances, and the
recorded offsets are the entry cursor. -/
theorem decodeOne_some_spec (D : Decoder) (p : Nat) (r : DRes (Option Instruction) p)
    (i : Instruction) (h : decodeOne D p = some r) (hv : r.val = some i) :
    i.length = r.pos - p ∧ p + 1 ≤ r.pos ∧ i.offset = D.base + p ∧ i.address = p := by
  simp only [decodeOne] at h
  split at h
  · cases h
    simp at hv
  · split at h
    · cases h
      simp at hv
    · split at h
      · exact absurd h (by simp)
      · rename_i rb hrb
        cases h
        simp only at hv
        cases hv
        refine ⟨rfl, ?_, rfl, rfl⟩
        show p + 1 ≤ rb.pos
        have h1 : p ≤ (scanPre D.data "" "" (D.data.length - p) p).pos :=
          (scanPre D.data "" "" (D.data.length - p) p).hle
        have h2 := rb.hle
        omega

/-- The iteration bound `e - p` suffices for the sweep loop: with that
much fuel the loop always runs to completion. -/
theorem sweepAux_isSome (D : Decoder) (e : Nat) :
    ∀ fuel p, e - p ≤ fuel → (sweepAux D e fuel p).isSome := by
  intro fuel
  induction fuel with
  | zero =>
    intro p h
    unfold sweepAux
    split
    · omega
    · simp
  | succ fuel ih =>
    intro p h
    unfold sweepAux
    split
    · rename_i hpe
      cases hdec : decodeOne D p with
      | none =>
        obtain ⟨x, hx⟩ := Option.isSome_iff_exists.mp (ih (p + 1) (by omega))
        obtain ⟨l, fin, st⟩ := x
        simp only [hx, Option.isSome_some]
      | some r =>
        cases hv : r.val with
        | none => simp [hv]
        | some inst =>
          have hadv := (decodeOne_some_spec D p r inst hdec hv).2.1
          obtain ⟨x, hx⟩ := Option.isSome_iff_exists.mp (ih r.pos (by omega))
          obtain ⟨l, fin, st⟩ := x
          simp only [hv, hx, Option.isSome_some]
    · simp

/-- Length accounting and offset ordering for a completed sweep: the
recorded lengths sum to the cursor advance of the completed steps, the
recorded offsets are strictly increasing and lie in `[base + p, base + e)`,
every instruction has length at least one, and unless the loop broke
out early through the end-of-stream case the final cursor is at least
`e`. -/
theorem sweepAux_spec (D : Decoder) (e : Nat) :
    ∀ fuel p l fin st, sweepAux D e fuel p = some (l, fin, st) →
      sumLengths l = fin - p ∧ p ≤ fin ∧ (st = false → e ≤ fin) ∧
      (∀ i ∈ l, D.base + p ≤ i.offset ∧ i.offset < D.base + e ∧ 1 ≤ i.length) ∧
      List.Chain' (fun a b => a.offset < b.offset) l := by
  intro fuel
  induction fuel with
  | zero =>
    intro p l fin st h
    unfold sweepAux at h
    split at h
    · exact absurd h (by simp)
    · rename_i hpe
      cases h
      exact ⟨by simp [sumLengths], Nat.le_refl p, fun _ => by omega, by simp, by simp⟩
  | succ fuel ih =>
    intro p l fin st h
    unfold sweepAux at h
    split at h
    · rename_i hpe
      split at h
      · -- decodeOne raised: db fallback
        rename_i hdec
        split at h
        · exact absurd h (by simp)
        · rename_i l2 fin2 st2 hrec
          cases h
          obtain ⟨hsum, hle, hst, hmem, hchain⟩ := ih (p + 1) _ _ _ hrec
          have hdb_len : (dbInst D p).length = 1 := rfl
          have hdb_off : (dbInst D p).offset = D.base + p := rfl
          refine ⟨?_, by omega, hst, ?_, ?_⟩
          · simp only [sumLengths, List.map_cons, List.sum_cons, hdb_len]
            simp only [sumLengths] at hsum
            omega
          · intro i hi
            rcases List.mem_cons.mp hi with hi | hi
            · subst hi
              exact ⟨by omega, by omega, by omega⟩
            · have := hmem i hi
              exact ⟨by omega, this.2.1, this.2.2⟩
          · rw [List.chain'_cons']
            refine ⟨?_, hchain⟩
            intro b hb
            have hbmem := hmem b (List.mem_of_mem_head? hb)
            omega
      · rename_i r hdec
        split at h
        · -- end-of-stream break
          cases h
          exact ⟨by simp [sumLengths], Nat.le_refl p, by simp, by simp, by simp⟩
        · rename_i inst hv
          obtain ⟨hlen, hadv, hoff, _⟩ := decodeOne_some_spec D p r inst hdec hv
          split at h
          · exact absurd h (by simp)
          · rename_i l2 fin2 st2 hrec
            cases h
            obtain ⟨hsum, hle, hst, hmem, hchain⟩ := ih r.pos _ _ _ hrec
            refine ⟨?_, by omega, hst, ?_, ?_⟩
            · simp only [sumLengths, List.map_cons, List.sum_cons]
              simp only [sumLengths] at hsum
              omega
            · intro i hi
              rcases List.mem_cons.mp hi with hi | hi
              · subst hi
                exact ⟨by omega, by omega, by omega⟩
              · have := hmem i hi
                exact ⟨by omega, this.2.1, this.2.2⟩
            · rw [List.chain'_cons']
              refine ⟨?_, hchain⟩
              intro b hb
              have hbmem := hmem b (List.mem_of_mem_head? hb)
              omega
    · rename_i hpe
      cases h
      exact ⟨by simp [sumLengths], Nat.le_refl p, fun _ => by omega, by simp, by simp⟩

/-! ## Evaluation helpers for symbolic decoding -/

theorem DRes.ext2 {α : Type} {p : Nat} (a b : DRes α p)
    (hv : a.val = b.val) (hp : a.pos = b.pos) : a = b := by
  cases a
  cases b
  simp only at hv hp
  subst hv hp
  rfl

/-- When the byte at the cursor is not a prefix byte, the prefix loop
stops immediately. -/
theorem scanPre_stop (d : List Nat) (seg rep : String) (fuel p : Nat) (b : Nat)
    (hb : d.get? p = some b)
    (hnp : b ≠ 0x26 ∧ b ≠ 0x2E ∧ b ≠ 0x36 ∧ b ≠ 0x3E ∧ b ≠ 0xF2 ∧ b ≠ 0xF3 ∧ b ≠ 0xF0) :
    scanPre d seg rep fuel p = ⟨(seg, rep), p, Nat.le_refl p⟩ := by
  cases fuel with
  | zero => rfl
  | succ fuel =>
    refine DRes.ext2 _ _ ?_ ?_ <;>
    · unfold scanPre
      simp only [hb, hnp.1, hnp.2.1, hnp.2.2.1, hnp.2.2.2.1,
                 hnp.2.2.2.2.1, hnp.2.2.2.2.2.1, hnp.2.2.2.2.2.2, if_false, ite_false]

theorem dval_bind_u8 {β : Type} (d : List Nat) (f : Nat → DecM β) (p b : Nat)
    (hb : d.get? p = some b) :
    dval ((u8 d >>= f) p) = dval (f b (p + 1)) ∧
    dpos ((u8 d >>= f) p) = dpos (f b (p + 1)) := by
  rw [DecM.bind_apply]
  unfold u8
  rw [hb]
  rcases hf : f b (p + 1) with _ | s <;>
    simp only [hf, dval_none, dval_some, dpos_none, dpos_some] <;> exact ⟨trivial, trivial⟩

theorem dval_bind_s8 {β : Type} (d : List Nat) (f : Int → DecM β) (p b : Nat)
    (hb : d.get? p = some b) :
    dval ((s8 d >>= f) p) = dval (f (sx8 b) (p + 1)) ∧
    dpos ((s8 d >>= f) p) = dpos (f (sx8 b) (p + 1)) := by
  rw [DecM.bind_apply]
  unfold s8
  rw [hb]
  rcases hf : f (sx8 b) (p + 1) with _ | s <;>
    simp only [hf, dval_none, dval_some, dpos_none, dpos_some] <;> exact ⟨trivial, trivial⟩

theorem dval_bind_u16 {β : Type} (d : List Nat) (f : Nat → DecM β) (p lo hi : Nat)
    (hlo : d.get? p = some lo) (hhi : d.get? (p + 1) = some hi) :
    dval ((u16 d >>= f) p) = dval (f (le16 lo hi) (p + 2)) ∧
    dpos ((u16 d >>= f) p) = dpos (f (le16 lo hi) (p + 2)) := by
  rw [DecM.bind_apply]
  unfold u16
  rw [hlo, hhi]
  rcases hf : f (le16 lo hi) (p + 2) with _ | s <;>
    simp only [hf, dval_none, dval_some, dpos_none, dpos_some] <;> exact ⟨trivial, trivial⟩

theorem dval_bind_s16 {β : Type} (d : List Nat) (f : Int → DecM β) (p lo hi : Nat)
    (hlo : d.get? p = some lo) (hhi : d.get? (p + 1) = some hi) :
    dval ((s16 d >>= f) p) = dval (f (sx16 (le16 lo hi)) (p + 2)) ∧
    dpos ((s16 d >>= f) p) = dpos (f (sx16 (le16 lo hi)) (p + 2)) := by
  rw [DecM.bind_apply]
  unfold s16
  rw [hlo, hhi]
  rcases hf : f (sx16 (le16 lo hi)) (p + 2) with _ | s <;>
    simp only [hf, dval_none, dval_some, dpos_none, dpos_some] <;> exact ⟨trivial, trivial⟩

theorem dval_bind_curPos {β : Type} (f : Nat → DecM β) (p : Nat) :
    dval ((curPos >>= f) p) = dval (f p p) ∧
    dpos ((curPos >>= f) p) = dpos (f p p) := by
  rw [DecM.bind_apply]
  unfold curPos
  rcases hf : f p p with _ | s <;>
    simp only [hf, dval_none, dval_some, dpos_none, dpos_some] <;> exact ⟨trivial, trivial⟩

theorem dval_pure {α : Type} (a : α) (p : Nat) :
    dval ((pure a : DecM α) p) = some a ∧ dpos ((pure a : DecM α) p) = some p :=
  ⟨rfl, rfl⟩

/-- `decode_one` in terms of the opcode ladder: at a non-prefix byte
`b`, a successful ladder result is wrapped into the instruction record
with offsets, length and raw bytes filled in from the cursor travel. -/
theorem decodeOne_via_body (D : Decoder) (p b : Nat) (c : Instruction) (q : Nat)
    (hb : D.data.get? p = some b)
    (hnp : b ≠ 0x26 ∧ b ≠ 0x2E ∧ b ≠ 0x36 ∧ b ≠ 0x3E ∧ b ≠ 0xF2 ∧ b ≠ 0xF3 ∧ b ≠ 0xF0)
    (hcv : dval (decodeBody D.data b "" (p + 1)) = some c)
    (hcq : dpos (decodeBody D.data b "" (p + 1)) = some q) :
    dval (decodeOne D p) =
      some (some { c with
                    offset := D.base + p,
                    address := p,
                    length := q - p,
                    raw := (D.data.drop p).take (q - p),
                    segOverride := "",
                    rep := "" }) ∧
    dpos (decodeOne D p) = some q := by
  have hplen : p < D.data.length := (List.get?_eq_some.mp hb).1
  have hpr := scanPre_stop D.data "" "" (D.data.length - p) p b hb hnp
  have hgd : D.data.getD p 0 = b := by
    simp [List.getD_eq_getD_get?, ← List.get?_eq_getElem?, hb]
  rcases hbody : decodeBody D.data b "" (p + 1) with _ | r
  · rw [hbody] at hcv
    simp at hcv
  · rw [hbody] at hcv hcq
    simp only [dval_some, dpos_some, Option.some.injEq] at hcv hcq
    simp only [decodeOne]
    rw [if_neg (by omega : ¬ p ≥ D.data.length)]
    generalize hgen : scanPre D.data "" "" (D.data.length - p) p = prv
    rw [hpr] at hgen
    subst hgen
    simp only [hgd]
    rw [if_neg (by omega : ¬ p ≥ D.data.length)]
    rw [hbody]
    subst hcv hcq
    exact ⟨rfl, rfl⟩

/-- Ladder evaluation for the one-byte-delta relative-target opcodes
(the sixteen short conditional branches, `loopnz`/`loopz`/`loop`,
`jcxz`, and the short unconditional jump): the stored operand is the
cursor after the delta byte plus the sign-extended delta, modulo
0x10000. -/
theorem decodeBody_rel8 (d : List Nat) (q b r : Nat)
    (hb : (0x70 ≤ b ∧ b ≤ 0x7F) ∨ b = 0xE0 ∨ b = 0xE1 ∨ b = 0xE2 ∨ b = 0xE3 ∨ b = 0xEB)
    (hr : d.get? q = some r) :
    dpos (decodeBody d b "" q) = some (q + 1) ∧
    (dval (decodeBody d b "" q)).map (fun i => i.op1) =
      some (some { type := .REL8, disp := (((q + 1 : Nat) : Int) + sx8 r).emod 65536,
                   size := 2 }) := by
  have hcase : b = 0x70 ∨ b = 0x71 ∨ b = 0x72 ∨ b = 0x73 ∨ b = 0x74 ∨ b = 0x75 ∨
      b = 0x76 ∨ b = 0x77 ∨ b = 0x78 ∨ b = 0x79 ∨ b = 0x7A ∨ b = 0x7B ∨ b = 0x7C ∨
      b = 0x7D ∨ b = 0x7E ∨ b = 0x7F ∨ b = 0xE0 ∨ b = 0xE1 ∨ b = 0xE2 ∨ b = 0xE3 ∨
      b = 0xEB := by omega
  clear hb
  rcases hcase with rfl | rfl | rfl | rfl | rfl | rfl | rfl | rfl | rfl | rfl | rfl |
    rfl | rfl | rfl | rfl | rfl | rfl | rfl | rfl | rfl | rfl <;>
  · simp only [decodeBody]
    norm_num
    rw [(dval_bind_s8 d _ q r hr).2, (dval_bind_s8 d _ q r hr).1,
        (dval_bind_curPos _ _).2, (dval_bind_curPos _ _).1,
        (dval_pure _ _).1, (dval_pure _ _).2]
    push_cast
    exact ⟨rfl, ⟨_, rfl, rfl⟩⟩

/-- Ladder evaluation for the two-byte-delta relative-target opcodes
(near `call` and near `jmp`). -/
theorem decodeBody_rel16 (d : List Nat) (q b lo hi : Nat)
    (hb : b = 0xE8 ∨ b = 0xE9)
    (hlo : d.get? q = some lo) (hhi : d.get? (q + 1) = some hi) :
    dpos (decodeBody d b "" q) = some (q + 2) ∧
    (dval (decodeBody d b "" q)).map (fun i => i.op1) =
      some (some { type := .REL16,
                   disp := (((q + 2 : Nat) : Int) + sx16 (le16 lo hi)).emod 65536,
                   size := 2 }) := by
  rcases hb with rfl | rfl <;>
  · simp only [decodeBody]
    norm_num
    rw [(dval_bind_s16 d _ q lo hi hlo hhi).2, (dval_bind_s16 d _ q lo hi hlo hhi).1,
        (dval_bind_curPos _ _).2, (dval_bind_curPos _ _).1,
        (dval_pure _ _).1, (dval_pure _ _).2]
    push_cast
    exact ⟨rfl, ⟨_, rfl, rfl⟩⟩

/-- Ladder evaluation for `INT imm8` with immediate `0x3F` and at
least three further bytes available: the overlay payload is consumed
(one module byte and a little-endian word). -/
theorem decodeBody_int3f (d : List Nat) (q m lo hi : Nat)
    (h3f : d.get? q = some 0x3F) (hm : d.get? (q + 1) = some m)
    (hlo : d.get? (q + 2) = some lo) (hhi : d.get? (q + 3) = some hi) :
    dpos (decodeBody d 0xCD "" q) = some (q + 4) ∧
    (dval (decodeBody d 0xCD "" q)).map
        (fun i => (i.mnemonic, i.overlay_num, i.overlay_off)) =
      some ("int", ((m : Nat) : Int), le16 lo hi) := by
  have hlen : q + 3 < d.length := (List.get?_eq_some.mp hhi).1
  simp only [decodeBody]
  norm_num
  rw [(dval_bind_u8 d _ q 0x3F h3f).2, (dval_bind_u8 d _ q 0x3F h3f).1,
      (dval_bind_curPos _ _).2, (dval_bind_curPos _ _).1]
  rw [if_pos (show (63 : Nat) = 63 ∧ q + 1 + 2 < d.length from ⟨rfl, by omega⟩)]
  rw [(dval_bind_u8 d _ (q + 1) m hm).2, (dval_bind_u8 d _ (q + 1) m hm).1,
      (dval_bind_u16 d _ (q + 2) lo hi hlo hhi).2, (dval_bind_u16 d _ (q + 2) lo hi hlo hhi).1,
      (dval_pure _ _).1, (dval_pure _ _).2]
  exact ⟨by norm_num, ⟨_, rfl, rfl, rfl, rfl⟩⟩

/-! ## Claim C3: relative-target normalization -/

/-- C3: for every decoded relative-target instruction (a short
conditional branch `0x70`-`0x7F`, `loopnz`/`loopz`/`loop`/`jcxz`
`0xE0`-`0xE3`, short `jmp` `0xEB`, near `call` `0xE8` or near `jmp`
`0xE9`), the stored operand value is the absolute offset of the next
instruction plus the sign-extended delta, modulo 0x10000; in
particular a short forward jump with delta +5 decoded at offset 0x100
stores target 0x107, and a short backward jump with delta -2 at offset
0x200 stores target 0x200. -/
theorem relative_target_normalization :
    (∀ (d : List Nat) (base p b r : Nat),
      d.get? p = some b → d.get? (p + 1) = some r →
      ((0x70 ≤ b ∧ b ≤ 0x7F) ∨ b = 0xE0 ∨ b = 0xE1 ∨ b = 0xE2 ∨ b = 0xE3 ∨ b = 0xEB) →
      (dval (decodeOne ⟨d, base⟩ p)).map
          (Option.map (fun i => (i.length, i.op1))) =
        some (some (2, some ({ type := .REL8, disp := (((p + 2 : Nat) : Int) + sx8 r).emod 65536, size := 2 } : Operand)))) ∧
    (∀ (d : List Nat) (base p b lo hi : Nat),
      d.get? p = some b → d.get? (p + 1) = some lo → d.get? (p + 2) = some hi →
      (b = 0xE8 ∨ b = 0xE9) →
      (dval (decodeOne ⟨d, base⟩ p)).map
          (Option.map (fun i => (i.length, i.op1))) =
        some (some (3, some ({ type := .REL16, disp := (((p + 3 : Nat) : Int) + sx16 (le16 lo hi)).emod 65536, size := 2 } : Operand)))) ∧
    (decodeRange ⟨List.replicate 0x100 0x90 ++ [0xEB, 0x05], 0⟩ 0x100 0x102).map
        (fun i => (i.offset, i.op1)) =
      [(0x100, some ({ type := .REL8, disp := 0x107, size := 2 } : Operand))] ∧
    (decodeRange ⟨List.replicate 0x200 0x90 ++ [0xEB, 0xFE], 0⟩ 0x200 0x202).map
        (fun i => (i.offset, i.op1)) =
      [(0x200, some ({ type := .REL8, disp := 0x200, size := 2 } : Operand))] := by
  refine ⟨?_, ?_, by decide, by decide⟩
  · intro d base p b r hb hr hfam
    obtain ⟨h2, h1⟩ := decodeBody_rel8 d (p + 1) b r hfam hr
    rcases hc : dval (decodeBody d b "" (p + 1)) with _ | c
    · rw [hc] at h1
      simp at h1
    · rw [hc] at h1
      simp only [Option.map_some', Option.some.injEq] at h1
      obtain ⟨hdv, hdp⟩ :=
        decodeOne_via_body ⟨d, base⟩ p b c (p + 2) hb (by omega) hc h2
      rw [hdv]
      simp only [Option.map_some', Option.some.injEq, Prod.mk.injEq]
      exact ⟨by omega, h1⟩
  · intro d base p b lo hi hb hlo hhi hfam
    obtain ⟨h2, h1⟩ := decodeBody_rel16 d (p + 1) b lo hi hfam hlo hhi
    rcases hc : dval (decodeBody d b "" (p + 1)) with _ | c
    · rw [hc] at h1
      simp at h1
    · rw [hc] at h1
      simp only [Option.map_some', Option.some.injEq] at h1
      obtain ⟨hdv, hdp⟩ :=
        decodeOne_via_body ⟨d, base⟩ p b c (p + 3) hb (by omega) hc h2
      rw [hdv]
      simp only [Option.map_some', Option.some.injEq, Prod.mk.injEq]
      exact ⟨by omega, h1⟩

/-- Witness for C3 at the concrete bytes `EB 05` and `E8 10 00`. -/
theorem relative_target_normalization_witness :
    (dval (decodeOne ⟨[0xEB, 0x05], 0⟩ 0)).map
        (Option.map (fun i => (i.length, i.op1))) =
      some (some (2, some ({ type := .REL8, disp := (((0 + 2 : Nat) : Int) + sx8 5).emod 65536, size := 2 } : Operand))) ∧
    (dval (decodeOne ⟨[0xE8, 0x10, 0x00], 0⟩ 0)).map
        (Option.map (fun i => (i.length, i.op1))) =
      some (some (3, some ({ type := .REL16, disp := (((0 + 3 : Nat) : Int) + sx16 (le16 0x10 0x00)).emod 65536, size := 2 } : Operand))) :=
  ⟨relative_target_normalization.1 [0xEB, 0x05] 0 0 0xEB 5 rfl rfl (by omega),
   relative_target_normalization.2.1 [0xE8, 0x10, 0x00] 0 0 0xE8 0x10 0x00 rfl rfl rfl
     (Or.inl rfl)⟩

/-! ## Claim C1: the INT 3Fh overlay trap -/

/-- C1: an interrupt instruction whose immediate byte is 0x3F and
which is followed by at least three bytes decodes as a single 5-byte
instruction carrying the next byte as module index and the following
little-endian word as entry offset; in particular `CD 3F 07 34 12`
decodes as one 5-byte instruction carrying `(7, 0x1234)`, and lifting
that instruction emits exactly the call `ovl07_1234(cpu);`. -/
theorem overlay_trap_decode :
    (∀ (d : List Nat) (base p m lo hi : Nat),
      d.get? p = some 0xCD → d.get? (p + 1) = some 0x3F → d.get? (p + 2) = some m →
      d.get? (p + 3) = some lo → d.get? (p + 4) = some hi →
      (dval (decodeOne ⟨d, base⟩ p)).map
          (Option.map (fun i => (i.mnemonic, i.length, i.overlay_num, i.overlay_off))) =
        some (some ("int", 5, ((m : Nat) : Int), le16 lo hi))) ∧
    (decodeRange ⟨[0xCD, 0x3F, 0x07, 0x34, 0x12], 0⟩ 0 5).map
        (fun i => (i.length, i.overlay_num, i.overlay_off)) = [(5, 7, 0x1234)] ∧
    (decodeRange ⟨[0xCD, 0x3F, 0x07, 0x34, 0x12], 0⟩ 0 5).map
        (fun i => (liftInstruction {} i 0).output) =
      [[.stmt 1 "ovl07_1234(cpu);" "INT 3Fh -> OVL 07:1234"]] := by
  refine ⟨?_, by decide, by decide⟩
  intro d base p m lo hi hcd h3f hm hlo hhi
  obtain ⟨h2, h1⟩ := decodeBody_int3f d (p + 1) m lo hi h3f hm hlo hhi
  rcases hc : dval (decodeBody d 0xCD "" (p + 1)) with _ | c
  · rw [hc] at h1
    simp at h1
  · rw [hc] at h1
    simp only [Option.map_some', Option.some.injEq] at h1
    obtain ⟨hdv, hdp⟩ :=
      decodeOne_via_body ⟨d, base⟩ p 0xCD c (p + 5) hcd (by omega) hc h2
    rw [hdv]
    simp only [Option.map_some', Option.some.injEq, Prod.mk.injEq]
    refine ⟨?_, by omega, ?_, ?_⟩
    · have := congrArg Prod.fst h1
      simpa using this
    · have := congrArg (fun t => t.2.1) h1
      simpa using this
    · have := congrArg (fun t => t.2.2) h1
      simpa using this

/-- Witness for C1 at the concrete bytes `CD 3F 07 34 12`. -/
theorem overlay_trap_decode_witness :
    (dval (decodeOne ⟨[0xCD, 0x3F, 0x07, 0x34, 0x12], 0⟩ 0)).map
        (Option.map (fun i => (i.mnemonic, i.length, i.overlay_num, i.overlay_off))) =
      some (some ("int", 5, ((7 : Nat) : Int), le16 0x34 0x12)) :=
  overlay_trap_decode.1 [0xCD, 0x3F, 0x07, 0x34, 0x12] 0 0 7 0x34 0x12
    rfl rfl rfl rfl rfl

/-! ## Claim C10: compute_file_offset -/

/-- C10: for all values of `seg`, `off` and `hdr_size`,
`compute_file_offset(seg, off, hdr_size) = 16*seg + off + hdr_size`;
the load-segment constant added and subtracted inside cancels exactly
(the second conjunct shows the cancellation for an arbitrary load
segment in place of the fixed `LOAD_SEG`), so the result does not
depend on the load segment. -/
theorem compute_file_offset_linear :
    (∀ seg off hdr : Nat, compute_file_offset seg off hdr = 16 * seg + off + hdr) ∧
    (∀ ls seg off hdr : Nat, (seg + ls) * 16 + off - ls * 16 + hdr = 16 * seg + off + hdr) := by
  constructor
  · intro seg off hdr
    simp only [compute_file_offset, LOAD_SEG]
    omega
  · intro ls seg off hdr
    omega

/-! ## Claim C9: termination and cursor progress of decode_range -/

/-- C9: `decode_range` terminates on every finite byte sequence and
every start/end pair: the sweep with iteration bound `e - s` always
runs to completion (first conjunct); each produced instruction records
length equal to the cursor advance, which is at least one (second
conjunct); hence every instruction in a sweep's result has length at
least one (third conjunct). -/
theorem decode_range_terminates :
    (∀ (D : Decoder) (e s : Nat), (sweepAux D e (e - s) s).isSome) ∧
    (∀ (D : Decoder) (p : Nat) (r : DRes (Option Instruction) p) (i : Instruction),
      decodeOne D p = some r → r.val = some i → i.length = r.pos - p ∧ p + 1 ≤ r.pos) ∧
    (∀ (D : Decoder) (s e : Nat), ∀ i ∈ decodeRange D s e, 1 ≤ i.length) := by
  refine ⟨fun D e s => sweepAux_isSome D e (e - s) s (Nat.le_refl _),
          fun D p r i h hv =>
            ⟨(decodeOne_some_spec D p r i h hv).1, (decodeOne_some_spec D p r i h hv).2.1⟩,
          fun D s e i hi => ?_⟩
  unfold decodeRange at hi
  rcases hsw : sweepAux D e (e - s) s with _ | ⟨l, fin, st⟩
  · rw [hsw] at hi
    simp at hi
  · rw [hsw] at hi
    exact ((sweepAux_spec D e (e - s) s l fin st hsw).2.2.2.1 i hi).2.2

/-- Witness for C9 at a concrete input: the two-byte buffer
`26 CD` (a segment prefix followed by a truncated `INT`). -/
theorem decode_range_terminates_witness :
    (sweepAux ⟨[0x26, 0xCD], 0⟩ 2 2 0).isSome = true ∧
    1 ≤ ((decodeRange ⟨[0x26, 0xCD], 0⟩ 0 2).headD {}).length :=
  ⟨decode_range_terminates.1 ⟨[0x26, 0xCD], 0⟩ 2 0,
   decode_range_terminates.2.2 ⟨[0x26, 0xCD], 0⟩ 0 2 _ (by decide)⟩

/-! ## Claim C2 (corrected): length accounting of decode_range -/

/-- C2, amended: `decode_range` terminates without raising an
exception on every byte sequence and range, and the recorded lengths
sum exactly to the cursor advance of the completed decode steps
(`fin - s`); when the sweep never exits early through the
end-of-stream break, the final cursor is at least `e` (it exceeds `e`
exactly when the last instruction straddles the range end, which is
when the sum exceeds `e - s`). -/
theorem decode_range_sum_characterization (D : Decoder) (s e : Nat)
    (l : List Instruction) (fin : Nat) (st : Bool)
    (h : sweepAux D e (e - s) s = some (l, fin, st)) :
    decodeRange D s e = l ∧ sumLengths l = fin - s ∧ s ≤ fin ∧
    (st = false → e ≤ fin) := by
  have hs := sweepAux_spec D e (e - s) s l fin st h
  refine ⟨?_, hs.1, hs.2.1, hs.2.2.1⟩
  unfold decodeRange
  rw [h]

/-- C2 counterexample: on the one-byte sequence `26` (a lone segment
prefix) the sweep of `[0, 1)` returns no instructions - `decode_one`
consumes the prefix byte, hits the end of the buffer and returns the
end-of-stream marker - so the recorded lengths sum to 0, not to
`end - start = 1`. -/
theorem decode_range_sum_counterexample :
    sumLengths (decodeRange ⟨[0x26], 0⟩ 0 1) ≠ 1 - 0 := by decide

/-- Witness for C2 (amended) at a concrete input: the one-byte buffer
`90` (NOP). -/
theorem decode_range_sum_witness :
    sumLengths (decodeRange ⟨[0x90], 0⟩ 0 1) = 1 - 0 := by
  have h : sweepAux ⟨[0x90], 0⟩ 1 1 0 =
      some ([{ offset := 0, address := 0, length := 1, raw := [0x90],
               mnemonic := "nop" }], 1, false) := by decide
  have hc := decode_range_sum_characterization ⟨[0x90], 0⟩ 0 1 _ 1 false h
  rw [hc.1]
  exact hc.2.1

/-! ## ModR/M memory-operand characterization (claims C4, C5) -/

/-- Characterization of `_decode_modrm` for a memory form (`mod < 3`):
the produced r/m operand's base, index and effective segment as
functions of the ModR/M byte and the override.  The three byte
hypotheses ensure any needed displacement bytes are present. -/
theorem decodeModRM_mem_spec (d : List Nat) (p : Nat) (m x y : Nat) (wide : Bool) (ov : String)
    (hm : d.get? p = some m) (hx : d.get? (p + 1) = some x) (hy : d.get? (p + 2) = some y)
    (hmd : (m >>> 6) &&& 3 ≠ 3) :
    ∃ ro mo, dval (decodeModRM d wide ov p) = some (ro, mo, (m >>> 3) &&& 7) ∧
      mo.type = .MEM ∧
      mo.base = (if (m >>> 6) &&& 3 = 0 ∧ m &&& 7 = 6 then ""
                 else (EA_BASES.getD (m &&& 7) ("", none)).1) ∧
      mo.index = (if (m >>> 6) &&& 3 = 0 ∧ m &&& 7 = 6 then ""
                  else ((EA_BASES.getD (m &&& 7) ("", none)).2).getD "") ∧
      mo.seg = (if ov = "" then
                  (if (m >>> 6) &&& 3 = 0 ∧ m &&& 7 = 6 then "ds"
                   else EA_DEFAULT_SEG.getD (m &&& 7) "")
                else ov) ∧
      mo.size = (if wide then 2 else 1) := by
  have hle : (m >>> 6) &&& 3 ≤ 3 := Nat.and_le_right
  simp only [decodeModRM, DecM.bind_apply, DecM.pure_apply, u8, hm]
  rw [if_neg hmd]
  by_cases h06 : (m >>> 6) &&& 3 = 0 ∧ m &&& 7 = 6
  · rw [if_pos h06]
    simp only [u16, hx, hy, DecM.bind_apply, DecM.pure_apply, dval_some]
    refine ⟨_, _, rfl, rfl, ?_, ?_, ?_, ?_⟩ <;> simp [h06]
  · rw [if_neg h06]
    have h012 : (m >>> 6) &&& 3 = 0 ∨ (m >>> 6) &&& 3 = 1 ∨ (m >>> 6) &&& 3 = 2 := by omega
    rcases h012 with h0 | h1 | h2
    · rw [if_neg (by omega : ¬ (m >>> 6) &&& 3 = 1), if_neg (by omega : ¬ (m >>> 6) &&& 3 = 2)]
      simp only [DecM.bind_apply, DecM.pure_apply, dval_some]
      refine ⟨_, _, rfl, rfl, ?_, ?_, ?_, ?_⟩ <;> simp [h06]
    · rw [if_pos h1]
      simp only [s8, hx, DecM.bind_apply, DecM.pure_apply, dval_some]
      refine ⟨_, _, rfl, rfl, ?_, ?_, ?_, ?_⟩ <;> simp [h06]
    · rw [if_neg (by omega : ¬ (m >>> 6) &&& 3 = 1), if_pos h2]
      simp only [s16, hx, hy, DecM.bind_apply, DecM.pure_apply, dval_some]
      refine ⟨_, _, rfl, rfl, ?_, ?_, ?_, ?_⟩ <;> simp [h06]

/-- C4, amended: for every ModR/M byte with `mod < 3` and `rm = 6`,
under either operand width and with or without a segment-override
prefix, the decoded memory operand has no base and no index when
`mod = 0` (the pure `[disp16]` form); for `mod = 1` or `mod = 2` it
has base `bp` and no index. -/
theorem modrm_rm6_addressing (d : List Nat) (p : Nat) (m x y : Nat) (wide : Bool) (ov : String)
    (hm : d.get? p = some m) (hx : d.get? (p + 1) = some x) (hy : d.get? (p + 2) = some y)
    (hrm : m &&& 7 = 6) (hmd : (m >>> 6) &&& 3 ≠ 3) :
    ∃ ro mo, dval (decodeModRM d wide ov p) = some (ro, mo, (m >>> 3) &&& 7) ∧
      mo.type = .MEM ∧
      ((m >>> 6) &&& 3 = 0 → mo.base = "" ∧ mo.index = "") ∧
      ((m >>> 6) &&& 3 ≠ 0 → mo.base = "bp" ∧ mo.index = "") := by
  obtain ⟨ro, mo, hv, ht, hb, hi, hs, hz⟩ :=
    decodeModRM_mem_spec d p m x y wide ov hm hx hy hmd
  refine ⟨ro, mo, hv, ht, ?_, ?_⟩
  · intro h0
    rw [hb, hi]
    simp [h0, hrm]
  · intro h0
    rw [hb, hi, hrm]
    simp [EA_BASES, h0]

/-- C4 counterexample: the ModR/M byte `0x46` (`mod = 1`, `rm = 6`)
followed by a displacement byte decodes to a memory operand with base
`bp` - not, as the claim states for every `mod < 3`, with no base. -/
theorem modrm_rm6_base_counterexample :
    (dval (decodeModRM [0x46, 0x05] false "" 0)).map (fun t => (t.2.1.base, t.2.1.index)) =
      some ("bp", "") ∧ "bp" ≠ "" := by decide

/-- Witness for C4 (amended) at the concrete bytes `46 05 00`. -/
theorem modrm_rm6_addressing_witness :
    (dval (decodeModRM [0x46, 0x05, 0x00] false "" 0)).map (fun t => (t.2.1.base, t.2.1.index)) =
      some ("bp", "") := by
  obtain ⟨ro, mo, hv, ht, h0, h1⟩ :=
    modrm_rm6_addressing [0x46, 0x05, 0x00] 0 0x46 5 0 false "" rfl rfl rfl
      (by decide) (by decide)
  rw [hv]
  have hb := h1 (by decide)
  simp [hb.1, hb.2]

/-- C5: for every memory operand decoded without a segment-override
prefix, the recorded effective segment is the stack segment exactly
when the operand's addressing form involves the frame pointer `bp`
(and is otherwise the data segment); the `mod = 0, rm = 6`
pure-displacement form records the data segment; and a present
override replaces the default. -/
theorem modrm_default_segment (d : List Nat) (p : Nat) (m x y : Nat) (wide : Bool) (ov : String)
    (hm : d.get? p = some m) (hx : d.get? (p + 1) = some x) (hy : d.get? (p + 2) = some y)
    (hmd : (m >>> 6) &&& 3 ≠ 3) :
    ∃ ro mo, dval (decodeModRM d wide ov p) = some (ro, mo, (m >>> 3) &&& 7) ∧
      mo.type = .MEM ∧
      (ov = "" →
        (mo.seg = "ss" ↔ (mo.base = "bp" ∨ mo.index = "bp")) ∧
        (mo.seg = "ss" ∨ mo.seg = "ds") ∧
        ((m >>> 6) &&& 3 = 0 ∧ m &&& 7 = 6 → mo.seg = "ds")) ∧
      (ov ≠ "" → mo.seg = ov) := by
  obtain ⟨ro, mo, hv, ht, hb, hi, hs, hz⟩ :=
    decodeModRM_mem_spec d p m x y wide ov hm hx hy hmd
  refine ⟨ro, mo, hv, ht, ?_, ?_⟩
  · intro hov
    rw [hov] at hs
    rw [if_pos rfl] at hs
    by_cases h06 : (m >>> 6) &&& 3 = 0 ∧ m &&& 7 = 6
    · rw [if_pos h06] at hs
      rw [if_pos h06] at hb hi
      refine ⟨?_, Or.inr hs, fun _ => hs⟩
      rw [hs, hb, hi]
      simp
    · rw [if_neg h06] at hs hb hi
      have hq7 : m &&& 7 ≤ 7 := Nat.and_le_right
      refine ⟨?_, ?_, fun hcon => absurd hcon h06⟩ <;>
      · set q := m &&& 7 with hq
        interval_cases q <;> simp [hs, hb, hi, EA_BASES, EA_DEFAULT_SEG]
  · intro hov
    rw [hs, if_neg hov]

/-- Witness for C5 at the concrete bytes `02 00 00` (`mod = 0`,
`rm = 2`, the `[bp+si]` form, default segment `ss`). -/
theorem modrm_default_segment_witness :
    (dval (decodeModRM [0x02, 0x00, 0x00] true "" 0)).map (fun t => t.2.1.seg) = some "ss" ∨
    (dval (decodeModRM [0x02, 0x00, 0x00] true "" 0)).map (fun t => t.2.1.seg) = some "ds" := by
  obtain ⟨ro, mo, hv, ht, hdef, hov⟩ :=
    modrm_default_segment [0x02, 0x00, 0x00] 0 2 0 0 true "" rfl rfl rfl (by decide)
  rcases (hdef rfl).2.1 with h | h
  · left
    rw [hv]
    simp [h]
  · right
    rw [hv]
    simp [h]

/-- Helper: with the address not a branch target, `lift_instruction`
on a `movsw` instruction emits exactly the string-move statement. -/
theorem liftInstruction_movsw (L : Lifter) (inst : Instruction) (fs : Nat)
    (hm : inst.mnemonic = "movsw")
    (hlab : ((inst.address : Int)) ∉ L.labelsNeeded) :
    liftInstruction L inst fs =
      emit L "mem_write16(cpu, cpu->es, cpu->di, mem_read16(cpu, cpu->ds, cpu->si)); cpu->si += df(cpu) ? -2 : 2; cpu->di += df(cpu) ? -2 : 2;" (instRepr inst) := by
  obtain ⟨off, addr, len, raw, mn, o1, o2, rp, sov, onum, ooff⟩ := inst
  simp only at hm hlab
  subst hm
  simp [liftInstruction, emitLabel, emit, hlab, CC_LIST]

/-- C7: for a `rep movsw` instruction whose address is not a recorded
branch target, `lift_function`'s per-instruction pass emits exactly
three lines: the `while (cpu->cx != 0) { cpu->cx--;` header at the
current indent, the `movsw` body one level deeper (the word move with
`df`-directed `si`/`di` updates), and the closing `}`. -/
theorem rep_movsw_lift (L : Lifter) (inst : Instruction) (fs : Nat)
    (hrep : inst.rep = "rep") (hm : inst.mnemonic = "movsw")
    (hlab : ((inst.address : Int)) ∉ L.labelsNeeded) :
    processInst fs L inst =
      { L with output := L.output ++
          [.stmt L.indentN "while (cpu->cx != 0) \x7b cpu->cx--;" ("rep " ++ inst.mnemonic),
           .stmt (L.indentN + 1) "mem_write16(cpu, cpu->es, cpu->di, mem_read16(cpu, cpu->ds, cpu->si)); cpu->si += df(cpu) ? -2 : 2; cpu->di += df(cpu) ? -2 : 2;" (instRepr { inst with rep := "" }),
           .stmt L.indentN "\x7d" ""] } := by
  obtain ⟨off, addr, len, raw, mn, o1, o2, rp, sov, onum, ooff⟩ := inst
  simp only at hrep hm hlab
  subst hrep hm
  simp [processInst, liftInstruction, instRepr, opRepr, emitLabel, emit, hlab, CC_LIST, List.append_assoc]

/-- Witness for C7: a concrete `rep movsw` instruction lifted in the
initial lifter state. -/
theorem rep_movsw_lift_witness :
    (({ mnemonic := "movsw", rep := "rep", raw := [0xF3, 0xA5], length := 2 } : Instruction)).rep = "rep" ∧
    processInst 0 {} { mnemonic := "movsw", rep := "rep", raw := [0xF3, 0xA5], length := 2 } =
      { ({} : Lifter) with output :=
          [.stmt 1 "while (cpu->cx != 0) \x7b cpu->cx--;" "rep movsw",
           .stmt 2 "mem_write16(cpu, cpu->es, cpu->di, mem_read16(cpu, cpu->ds, cpu->si)); cpu->si += df(cpu) ? -2 : 2; cpu->di += df(cpu) ? -2 : 2;" "movsw",
           .stmt 1 "\x7d" ""] } :=
  ⟨rfl, by
    have h := rep_movsw_lift {} { mnemonic := "movsw", rep := "rep", raw := [0xF3, 0xA5], length := 2 } 0 rfl rfl (by decide)
    simpa [instRepr] using h⟩

/-- `trackInst` never moves the function start. -/
theorem trackInst_start (rs : Nat) (i : Instruction) (f : AFunction) :
    (trackInst rs i f).start = f.start := by
  simp only [trackInst]
  repeat' split
  all_goals rfl

/-- `localSizeFrom` never moves the function start. -/
theorem localSizeFrom_start (t : Option Instruction) (f : AFunction) :
    (localSizeFrom t f).start = f.start := by
  simp only [localSizeFrom]
  repeat' split
  all_goals rfl

/-- In a stop-meets-start chain of non-empty ranges, the head range ends
no later than any later range starts. -/
theorem chain_stop_le_start_head :
    ∀ (t : List AFunction) (a : AFunction),
      List.Chain' (fun x y => x.stop = y.start) (a :: t) →
      (∀ f ∈ a :: t, f.start < f.stop) →
      ∀ b ∈ t, a.stop ≤ b.start := by
  intro t
  induction t with
  | nil =>
    intro a _ _ b hb
    cases hb
  | cons c t ih =>
    intro a hc hlt b hb
    rw [List.chain'_cons] at hc
    rcases List.mem_cons.mp hb with rfl | hb
    · exact le_of_eq hc.1
    · have h2 := ih c hc.2 (fun f hf => hlt f (List.mem_cons_of_mem a hf)) b hb
      have h3 : c.start < c.stop := hlt c (List.mem_cons_of_mem a (List.mem_cons_self c t))
      have h1 := hc.1
      omega

/-- A stop-meets-start chain of non-empty ranges is pairwise
non-overlapping. -/
theorem chain_stop_le_start :
    ∀ (l : List AFunction), List.Chain' (fun x y => x.stop = y.start) l →
      (∀ f ∈ l, f.start < f.stop) →
      List.Pairwise (fun a b => a.stop ≤ b.start) l := by
  intro l
  induction l with
  | nil =>
    intro _ _
    exact List.Pairwise.nil
  | cons a t ih =>
    intro hc hlt
    refine List.Pairwise.cons (chain_stop_le_start_head t a hc hlt) ?_
    exact ih ((List.chain'_cons'.mp hc).2) (fun f hf => hlt f (List.mem_cons_of_mem a hf))

/-- Invariant of the function-detection sweep: on a strictly
offset-increasing instruction list bounded by the region end, the
produced functions form a stop-meets-start chain of ranges inside the
region, the final function ends at the region end, and an open current
function contributes its start to the head of the result. -/
theorem detectAux_spec (rs re ovlNum : Nat) :
    ∀ (insts : List Instruction) (cur : Option AFunction),
      List.Pairwise (fun a b => a.offset < b.offset) insts →
      (∀ i ∈ insts, i.offset < re) →
      (∀ f, cur = some f → (∀ i ∈ insts, f.start < i.offset) ∧ f.start < re) →
      List.Chain' (fun a b => a.stop = b.start) (detectAux rs re ovlNum insts cur) ∧
      (∀ g ∈ detectAux rs re ovlNum insts cur, g.start < g.stop ∧ g.stop ≤ re) ∧
      (∀ g, (detectAux rs re ovlNum insts cur).getLast? = some g → g.stop = re) ∧
      (∀ f, cur = some f → detectAux rs re ovlNum insts cur ≠ [] ∧
        ∀ g, (detectAux rs re ovlNum insts cur).head? = some g → g.start = f.start) := by
  intro insts
  induction insts with
  | nil =>
    intro cur hpw hbd hcur
    cases cur with
    | none =>
      refine ⟨?_, ?_, ?_, ?_⟩ <;> simp [detectAux]
    | some f =>
      obtain ⟨-, hfre⟩ := hcur f rfl
      have hres : detectAux rs re ovlNum [] (some f) =
          [{ f with stop := re, size := re - f.start }] := rfl
      rw [hres]
      refine ⟨List.chain'_singleton _, ?_, ?_, ?_⟩
      · intro g hg
        rcases List.mem_singleton.mp hg with rfl
        exact ⟨hfre, Nat.le_refl re⟩
      · intro g hg
        cases hg
        rfl
      · intro f2 hf2
        cases hf2
        exact ⟨by simp, fun g hg => by cases hg; rfl⟩
  | cons inst rest ih =>
    intro cur hpw hbd hcur
    obtain ⟨hhd, hpw'⟩ := List.pairwise_cons.mp hpw
    have hbd' : ∀ i ∈ rest, i.offset < re := fun i hi => hbd i (List.mem_cons_of_mem inst hi)
    have hire : inst.offset < re := hbd inst (List.mem_cons_self inst rest)
    by_cases hp : isProloguePair inst rest.head? = true
    · -- a prologue opens a new function at inst.offset
      have hnfstart :
          (trackInst rs inst (localSizeFrom rest.tail.head?
            { start := inst.offset, overlay_num := ovlNum,
              is_overlay := decide (ovlNum > 0) })).start = inst.offset := by
        rw [trackInst_start, localSizeFrom_start]
      obtain ⟨ch1, mem1, last1, hd1⟩ := ih
        (some (trackInst rs inst (localSizeFrom rest.tail.head?
          { start := inst.offset, overlay_num := ovlNum, is_overlay := decide (ovlNum > 0) })))
        hpw' hbd'
        (by
          intro f2 hf2
          cases hf2
          rw [hnfstart]
          exact ⟨hhd, hire⟩)
      obtain ⟨hne1, hhead1⟩ := hd1 _ rfl
      cases cur with
      | none =>
        have hres : detectAux rs re ovlNum (inst :: rest) none =
            detectAux rs re ovlNum rest
              (some (trackInst rs inst (localSizeFrom rest.tail.head?
                { start := inst.offset, overlay_num := ovlNum,
                  is_overlay := decide (ovlNum > 0) }))) := by
          simp only [detectAux]
          rw [if_pos hp]
          rfl
        rw [hres]
        refine ⟨ch1, mem1, last1, ?_⟩
        intro f2 hf2
        cases hf2
      | some f =>
        obtain ⟨hflt, hfre⟩ := hcur f rfl
        have hres : detectAux rs re ovlNum (inst :: rest) (some f) =
            { f with stop := inst.offset, size := inst.offset - f.start } ::
              detectAux rs re ovlNum rest
                (some (trackInst rs inst (localSizeFrom rest.tail.head?
                  { start := inst.offset, overlay_num := ovlNum,
                    is_overlay := decide (ovlNum > 0) }))) := by
          simp only [detectAux]
          rw [if_pos hp]
          rfl
        rw [hres]
        refine ⟨?_, ?_, ?_, ?_⟩
        · rw [List.chain'_cons']
          refine ⟨?_, ch1⟩
          intro y hy
          have := hhead1 y hy
          simp only at this ⊢
          rw [this, hnfstart]
        · intro g hg
          rcases List.mem_cons.mp hg with rfl | hg
          · exact ⟨hflt inst (List.mem_cons_self inst rest), Nat.le_of_lt hire⟩
          · exact mem1 g hg
        · intro g hg
          have heq : ({ f with stop := inst.offset, size := inst.offset - f.start } ::
              detectAux rs re ovlNum rest
                (some (trackInst rs inst (localSizeFrom rest.tail.head?
                  { start := inst.offset, overlay_num := ovlNum,
                    is_overlay := decide (ovlNum > 0) })))) =
              [{ f with stop := inst.offset, size := inst.offset - f.start }] ++
              detectAux rs re ovlNum rest
                (some (trackInst rs inst (localSizeFrom rest.tail.head?
                  { start := inst.offset, overlay_num := ovlNum,
                    is_overlay := decide (ovlNum > 0) }))) := rfl
          rw [heq, List.getLast?_append_of_ne_nil _ hne1] at hg
          exact last1 g hg
        · intro f2 hf2
          cases hf2
          exact ⟨by simp, fun g hg => by cases hg; rfl⟩
    · -- not a prologue: keep tracking the current function
      have hres : detectAux rs re ovlNum (inst :: rest) cur =
          detectAux rs re ovlNum rest (cur.map (trackInst rs inst)) := by
        simp only [detectAux]
        rw [if_neg hp]
      obtain ⟨ch1, mem1, last1, hd1⟩ := ih (cur.map (trackInst rs inst)) hpw' hbd'
        (by
          intro f2 hf2
          cases cur with
          | none => cases hf2
          | some f =>
            obtain ⟨hflt, hfre⟩ := hcur f rfl
            simp only [Option.map_some'] at hf2
            cases hf2
            rw [trackInst_start]
            exact ⟨fun i hi => hflt i (List.mem_cons_of_mem inst hi), hfre⟩)
      rw [hres]
      refine ⟨ch1, mem1, last1, ?_⟩
      intro f hf
      cases hf
      obtain ⟨hne1, hhead1⟩ := hd1 (trackInst rs inst f) (by rw [Option.map_some'])
      refine ⟨hne1, ?_⟩
      intro g hg
      rw [hhead1 g hg, trackInst_start]

/-- `decode_all` produces instructions with strictly increasing offsets
inside the decoded window. -/
theorem decodeAll_offsets (D : Decoder) :
    List.Chain' (fun a b => a.offset < b.offset) (decodeAll D) ∧
    ∀ i ∈ decodeAll D, D.base ≤ i.offset ∧ i.offset < D.base + D.data.length := by
  unfold decodeAll decodeRange
  have hs := sweepAux_isSome D D.data.length (D.data.length - 0) 0 (by omega)
  obtain ⟨⟨l, fin, st⟩, hx⟩ := Option.isSome_iff_exists.mp hs
  rw [hx]
  obtain ⟨-, -, -, hmem, hchain⟩ := sweepAux_spec D D.data.length _ 0 l fin st hx
  refine ⟨hchain, fun i hi => ⟨?_, (hmem i hi).2.1⟩⟩
  have := (hmem i hi).1
  omega

/-- C6: the functions detected in a region `[rs, re)` tile it in order:
each function closes exactly where the next one starts, every function
satisfies `start < stop ≤ re`, the last function (when any exists) ends
exactly at the region end, and consequently the ranges are pairwise
non-overlapping and ordered by start offset. -/
theorem function_ranges_partition (d : List Nat) (rs re ovlNum : Nat) :
    List.Chain' (fun a b => a.stop = b.start) (detectFunctionsInRange d rs re ovlNum) ∧
    (∀ g ∈ detectFunctionsInRange d rs re ovlNum, g.start < g.stop ∧ g.stop ≤ re) ∧
    (∀ g, (detectFunctionsInRange d rs re ovlNum).getLast? = some g → g.stop = re) ∧
    List.Pairwise (fun a b => a.stop ≤ b.start) (detectFunctionsInRange d rs re ovlNum) := by
  have hres : detectFunctionsInRange d rs re ovlNum =
      detectAux rs re ovlNum
        (decodeAll { data := (d.drop rs).take (re - rs), base := rs }) none := rfl
  obtain ⟨hchain, hmem⟩ := decodeAll_offsets { data := (d.drop rs).take (re - rs), base := rs }
  have hcl : ((d.drop rs).take (re - rs)).length ≤ re - rs := by
    rw [List.length_take]
    exact Nat.min_le_left _ _
  haveI : IsTrans Instruction (fun a b => a.offset < b.offset) :=
    ⟨fun a b c h1 h2 => Nat.lt_trans h1 h2⟩
  have hpw := List.chain'_iff_pairwise.mp hchain
  have hbd : ∀ i ∈ decodeAll { data := (d.drop rs).take (re - rs), base := rs },
      i.offset < re := by
    intro i hi
    obtain ⟨h1, h2⟩ := hmem i hi
    simp only at h1 h2
    omega
  obtain ⟨c1, c2, c3, -⟩ := detectAux_spec rs re ovlNum
    (decodeAll { data := (d.drop rs).take (re - rs), base := rs }) none
    hpw hbd (fun f hf => by cases hf)
  rw [hres]
  exact ⟨c1, c2, c3, chain_stop_le_start _ c1 (fun f hf => (c2 f hf).1)⟩

/-- `getLast?`-with-default over a cons: the head only matters when the
tail is empty. -/
theorem getLastD_cons {α : Type} (c x : α) (L : List α) :
    ((c :: L).getLast?).getD x = (L.getLast?).getD c := by
  cases L with
  | nil => rfl
  | cons b t =>
    rw [List.getLast?_cons_cons]
    have hns : ((b :: t).getLast?).isSome = true :=
      List.getLast?_isSome.mpr (by simp)
    obtain ⟨y, hy⟩ := Option.isSome_iff_exists.mp hns
    rw [hy]
    rfl

/-- The per-function fold of `categorize_functions` keeps everything
but the category and ends at the last matching run's category. -/
theorem categorize_fold (runs : List (Nat × String)) : ∀ (f : AFunction),
    runs.foldl (fun g r =>
      if g.start ≤ r.1 ∧ r.1 < g.stop then
        match firstCat r.2 with
        | some c => { g with category := c }
        | none => g
      else g) f =
    { f with category := ((runs.filterMap (fun r => if f.start ≤ r.1 ∧ r.1 < f.stop then firstCat r.2 else none)).getLast?).getD f.category } := by
  induction runs with
  | nil =>
    intro f
    simp only [List.foldl_nil, List.filterMap_nil, List.getLast?_nil, Option.getD_none]
  | cons r rest ih =>
    intro f
    simp only [List.foldl_cons, List.filterMap_cons]
    by_cases hin : f.start ≤ r.1 ∧ r.1 < f.stop
    · rw [if_pos hin, if_pos hin]
      cases hfc : firstCat r.2 with
      | none => exact ih f
      | some c =>
        refine (ih { f with category := c }).trans ?_
        dsimp only
        simp only [getLastD_cons]
    · rw [if_neg hin, if_neg hin]
      exact ih f

/-- C8 (amended): `categorize_functions` assigns each function the
category of the *last* extracted run whose start offset falls in the
function's half-open range and which matches the keyword table (the
`break` in the source only leaves the inner loop over the table, so
later matching runs overwrite earlier ones); functions with no
matching run keep their previous (default empty) tag. -/
theorem categorize_last_match (runs : List (Nat × String)) (funcs : List AFunction) :
    categorizeFunctions runs funcs =
      funcs.map (fun f => { f with category := (lastMatchCat runs f).getD f.category }) := by
  unfold categorizeFunctions lastMatchCat
  exact List.map_congr_left (fun f _ => categorize_fold runs f)

/-- C8 counterexample to the claim as stated: over the bytes of
`".pic\0.cvl\0"` the window `[0, 10)` yields the runs
`[(0, ".pic"), (5, ".cvl")]`; for a function covering `[0, 10)` the
first matching run gives `gfx`, but `categorize_functions` returns
`sound` (the last matching run). -/
theorem categorize_first_match_counterexample :
    (categorizeFunctions
        (extractStrings [46, 112, 105, 99, 0, 46, 99, 118, 108, 0] 0 10)
        [{ start := 0, stop := 10 }]).map AFunction.category ≠
      [((firstMatchCat (extractStrings [46, 112, 105, 99, 0, 46, 99, 118, 108, 0] 0 10)
          { start := 0, stop := 10 }).getD "")] := by
  decide

end Civ
